import Mathlib

/-!
# Quasar extension data-source engine

A shallow embedding of `src/extension-api/extension.cpp` (class `Extension`):
construction and registration of data sources, subscription management,
data retrieval with TTL caching, the poll and push paths, initialisation and
destruction.

Conventions of the embedding:

* a `void*` handle is a `Nat`, with `0` standing for `nullptr`;
* `std::set<void*>` is a list of handles, insertion keeps it duplicate free and
  erasure removes every occurrence;
* the `datasources` map is an association list kept in insertion order;
  lookup and in-place update both act on the first entry with the key;
* per-source mutexes and condition variables carry no state in a sequential
  model, `cv.notify_one()` is recorded as an event;
* calls that leave the `Extension` object (module hooks, `PublishData`) are
  appended to a chronological trace; the native module and the system clock
  are oracles of the environment: a hook answers as a function of the trace
  so far, `system_clock::now()` returns the next reading of a clock stream;
* a `system_clock::time_point` is a signed 64-bit count of clock ticks since
  the epoch; how many ticks make a millisecond is fixed by the standard
  library, not by the source, and is a parameter of the environment (`10^6`
  for the nanosecond clock of libstdc++, `10^4` for the 100 ns clock of
  MSVC). Arithmetic on time points wraps at 64 bits (two's complement);
  clock readings are natural numbers below `2^63`;
* the constants `QUASAR_POLLING_SIGNALED`, `QUASAR_POLLING_CLIENT` and
  `QUASAR_API_VERSION` come from a header that is not part of the sources
  (`extension_types.h`), they are parameters of the environment.
-/

namespace Quasar

/-! ## JSON values and the response envelope -/

/-- A `jsoncons::json` value. -/
inductive Json where
  | null
  | bool (b : Bool)
  | num (n : Int)
  | str (s : String)
  | arr (xs : List Json)
  | obj (kvs : List (String × Json))

/-- The test `json::is_null()`. -/
def Json.is_null : Json → Bool
  | .null => true
  | _ => false

/-- A default constructed `jsoncons::json`: the empty object. -/
def Json.empty : Json := .obj []

/-- A JSON object body: key/value members. -/
abbrev JObject := List (String × Json)

/-- Member lookup `o.at(k)`, `none` when the key is absent. -/
def JObject.get : JObject → String → Option Json
  | [], _ => none
  | (k, v) :: rest, n => if k = n then some v else JObject.get rest n

/-- The assignment `o[k] = v`: replaces the member when the key is present,
adds it otherwise. -/
def JObject.set : JObject → String → Json → JObject
  | [], n, v => [(n, v)]
  | (k, w) :: rest, n, v => if k = n then (k, v) :: rest else (k, w) :: JObject.set rest n v

/-- The envelope both the poll and the push path build:
`{"data": {<extension name>: data}, "errors": errors}`. Field `data` is the
object `msg["data"][GetName()]`. -/
structure Envelope where
  data : JObject
  errors : List String

/-- The envelope as the JSON document that is dumped. -/
def Envelope.toJson (extName : String) (m : Envelope) : Json :=
  .obj [("data", .obj [(extName, .obj m.data)]), ("errors", .arr (m.errors.map Json.str))]

/-- The envelope `PollDataForSending` and `sendDataToSubscribers` start from:
`j["data"] = {GetName(): {}}`, `j["errors"] = []`. -/
def Envelope.init : Envelope := { data := [], errors := [] }

/-! ## The environment: native module, clock, header constants -/

/-- The out-parameter of the `get_data` hook: `{optional value, errors}`. -/
structure quasar_return_data_t where
  val : Option Json
  errors : List String

/-- Calls that leave the `Extension` object, in the order they happen. -/
inductive Event where
  | init
  | get_data (uid : Nat) (args : Option String)
  | shutdown
  | PublishData (topic : String) (message : Envelope)
  | notify_one (src : String)

/-- What the code runs against. The three constants are those of the missing
header; `init` and `get_data` are the hooks of the loaded module, answering
as a function of the trace of earlier calls; `now k` is the reading the
`k`-th call of `system_clock::now()` returns, in ticks of the clock since the
epoch; `ticksPerMs` is the number of ticks of `system_clock` in a
millisecond. -/
structure Env where
  QUASAR_POLLING_SIGNALED : Int
  QUASAR_POLLING_CLIENT : Int
  QUASAR_API_VERSION : Nat
  init : List Event → Bool
  get_data : List Event → Nat → Option String → Bool × quasar_return_data_t
  now : Nat → Nat
  ticksPerMs : Nat

/-- Process state outside any one `Extension`: the static counter
`Extension::_uid`, the number of clock readings taken, the trace. -/
structure Sys where
  uid : Nat
  ticks : Nat
  trace : List Event

/-- One call of `system_clock::now()`. -/
def Sys.tick (s : Sys) : Sys := { s with ticks := s.ticks + 1 }

/-- Appends an event to the trace. -/
def Sys.log (s : Sys) (e : Event) : Sys := { s with trace := s.trace ++ [e] }

/-! ## Data sources -/

/-- The rendezvous of a signaled source (`DataLock`): only the flag carries
state. -/
structure DataLock where
  processed : Bool

/-- A running interval timer, with the period given to `setInterval`. -/
structure Timer where
  interval : Int

/-- The TTL cache of a source; `expiry` is a time point, a signed count of
clock ticks. -/
structure DataCache where
  data : Json
  expiry : Int

/-- The value a signed 64-bit integer holds after an operation whose exact
result is `x`: `x` reduced modulo `2^64` into the range from `-2^63` to
`2^63 - 1`. -/
def wrap64 (x : Int) : Int :=
  (x + ((2 ^ 63 : Nat) : Int)) % ((2 ^ 64 : Nat) : Int) - ((2 ^ 63 : Nat) : Int)

/-- The time point `now + milliseconds(validtime)` of line 301, for the clock
reading `now`: the validity time is converted into ticks of the clock and
added, in 64-bit signed arithmetic. Each step (the conversion of the validity
time into the signed count of `milliseconds`, the multiplication into ticks,
the addition) is exact modulo `2^64`, so the result is the exact sum reduced
into the signed range. -/
def expiryAfter (E : Env) (now validtime : Nat) : Int :=
  wrap64 ((now + validtime * E.ticksPerMs : Nat) : Int)

/-- State of one data source (`Extension::DataSource`). -/
structure DataSource where
  enabled : Bool
  name : String
  rate : Int
  validtime : Nat
  uid : Nat
  locks : Option DataLock
  cache : DataCache
  subscribers : List Nat
  pollqueue : List Nat
  timer : Option Timer

/-- Result of a retrieval. -/
inductive DataSourceReturnState where
  | GET_DATA_FAILED
  | GET_DATA_DELAYED
  | GET_DATA_SUCCESS
  deriving DecidableEq, Repr

open DataSourceReturnState

/-- The guarded merge `if (!rett.errors.empty()) msg["errors"].insert(end, ...)`. -/
def mergeErrors (msg : Envelope) (errs : List String) : Envelope :=
  if errs.isEmpty then msg else { msg with errors := msg.errors ++ errs }

/-- The test `src.rate == QUASAR_POLLING_CLIENT && src.validtime`. -/
def DataSource.cached (E : Env) (src : DataSource) : Bool :=
  src.rate == E.QUASAR_POLLING_CLIENT && src.validtime != 0

/-- The argument pointer handed to the hook: `args.empty() ? nullptr : args.data()`. -/
def argPtr (args : String) : Option String := if args.isEmpty then none else some args

/-- The cache test of a retrieval, `src.cache.expiry >= system_clock::now()` for
a client polled source with a validity time, at the next clock reading. -/
def cacheFresh (E : Env) (s : Sys) (src : DataSource) : Bool :=
  src.cached E && decide (src.cache.expiry ≥ (E.now s.ticks : Int))

/-- The function `Extension::getDataFromSource(msg, src, args)`. Returns the
outcome, the envelope, the source and the process state after the call. -/
def getDataFromSource (E : Env) (s : Sys) (msg : Envelope) (src : DataSource)
    (args : String) : DataSourceReturnState × Envelope × DataSource × Sys :=
  if !src.enabled then
    (GET_DATA_FAILED, msg, src, s)
  else if cacheFresh E s src then
    (GET_DATA_SUCCESS, { msg with data := msg.data.set src.name src.cache.data }, src, s.tick)
  else
    let s1 := if src.cached E then s.tick else s
    let a := argPtr args
    let r := E.get_data s1.trace src.uid a
    let s2 := s1.log (Event.get_data src.uid a)
    if !r.1 then
      (GET_DATA_FAILED, mergeErrors msg r.2.errors, src, s2)
    else
      let msg1 := mergeErrors msg r.2.errors
      match r.2.val with
      | none =>
        if src.rate == E.QUASAR_POLLING_CLIENT then (GET_DATA_DELAYED, msg1, src, s2)
        else (GET_DATA_FAILED, msg1, src, s2)
      | some v =>
        if v.is_null then (GET_DATA_SUCCESS, msg1, src, s2)
        else if src.cached E then
          (GET_DATA_SUCCESS, { msg1 with data := msg1.data.set src.name v },
            { src with cache := { data := v,
                                  expiry := expiryAfter E (E.now s2.ticks) src.validtime } },
            s2.tick)
        else
          (GET_DATA_SUCCESS, { msg1 with data := msg1.data.set src.name v }, src, s2)

/-! ## The extension -/

/-- One entry of the descriptor array a module supplies. -/
structure quasar_data_source_t where
  name : String
  rate : Int
  validtime : Nat
  uid : Nat

/-- The field table of a module. -/
structure quasar_ext_fields_t where
  name : String
  fullname : String
  author : String
  description : String
  version : String
  url : String

/-- The descriptor `quasar_ext_load` returns. A pointer that may be null is
an `Option`; for a hook only whether the pointer is set is kept here (what
the hook does is in `Env`). -/
structure quasar_ext_info_t where
  api_version : Nat
  fields : Option quasar_ext_fields_t
  dataSources : Option (List quasar_data_source_t)
  init : Bool
  shutdown : Bool
  get_data : Bool
  create_settings : Bool

/-- The `datasources` map. -/
abbrev SourceMap := List (String × DataSource)

/-- The lookup `datasources[k]` for a key that may be absent. -/
def SourceMap.find : SourceMap → String → Option DataSource
  | [], _ => none
  | (k, d) :: rest, n => if k = n then some d else SourceMap.find rest n

/-- The test `datasources.count(k)`. -/
def SourceMap.count (m : SourceMap) (n : String) : Bool := (m.find n).isSome

/-- Writes back the entry a reference `datasources[k]` points to. -/
def SourceMap.assign : SourceMap → String → DataSource → SourceMap
  | [], _, _ => []
  | (k, d) :: rest, n, e => if k = n then (k, e) :: rest else (k, d) :: SourceMap.assign rest n e

/-- The class `Extension`. -/
structure Extension where
  extensionInfo : quasar_ext_info_t
  libpath : String
  initialized : Bool
  name : String
  fullname : String
  author : String
  description : String
  version : String
  url : String
  datasources : SourceMap

/-- Insertion into a `std::set` of handles. -/
def setInsert (x : Nat) (xs : List Nat) : List Nat := if x ∈ xs then xs else xs ++ [x]

/-- Erasure from a `std::set` of handles. -/
def setErase (x : Nat) (xs : List Nat) : List Nat := xs.filter (fun y => y != x)

/-- The data source the registration loop builds for descriptor `d`, given
the fresh uid and the clock reading (used for a client polled source only).
Fields the loop does not assign keep the value of a default constructed
`DataSource`: empty sets, no timer, an empty JSON object as cached value, the
epoch as expiry; the flag of a fresh rendezvous is `false`. -/
def newSource (E : Env) (d : quasar_data_source_t) (uid now : Nat) : DataSource :=
  { enabled := true
    name := d.name
    rate := d.rate
    validtime := d.validtime
    uid := uid
    locks := if d.rate == E.QUASAR_POLLING_SIGNALED then some { processed := false } else none
    cache := { data := Json.empty
               expiry := if d.rate == E.QUASAR_POLLING_CLIENT then (now : Int) else 0 }
    subscribers := []
    pollqueue := []
    timer := none }

/-- The registration loop of the constructor over the descriptor array:
returns the array with the uids written back, the map, the process state. -/
def registerSources (E : Env) :
    List quasar_data_source_t → SourceMap → Sys → List quasar_data_source_t × SourceMap × Sys
  | [], m, s => ([], m, s)
  | d :: rest, m, s =>
    if m.count d.name then
      let r := registerSources E rest m s
      (d :: r.1, r.2.1, r.2.2)
    else
      let uid := (s.uid + 1) % 2 ^ 64
      let s1 : Sys := { s with uid := uid }
      let s2 := if d.rate == E.QUASAR_POLLING_CLIENT then s1.tick else s1
      let r := registerSources E rest (m ++ [(d.name, newSource E d uid (E.now s1.ticks))]) s2
      ({ d with uid := uid } :: r.1, r.2.1, r.2.2)

/-- The constructor `Extension::Extension(p, destroyfunc, path, srv, cfg)`;
an exception is an `Except.error` holding its message. -/
def Extension.ctor (E : Env) (p : Option quasar_ext_info_t) (path : String) (s : Sys) :
    Except String (Extension × Sys) :=
  match p with
  | none => .error "null extensionInfo"
  | some info =>
    if info.api_version ≠ E.QUASAR_API_VERSION then .error "unsupported API version"
    else match info.fields with
      | none => .error "null extension fields struct"
      | some f =>
        if f.name.isEmpty || f.fullname.isEmpty then
          .error "Invalid extension identifier or name"
        else
          let r := match info.dataSources with
            | none => (none, [], s)
            | some ds =>
              let q := registerSources E ds [] s
              (some q.1, q.2.1, q.2.2)
          .ok ({ extensionInfo := { info with dataSources := r.1 }
                 libpath := path
                 initialized := false
                 name := f.name
                 fullname := f.fullname
                 author := f.author
                 description := f.description
                 version := f.version
                 url := f.url
                 datasources := r.2.1 }, r.2.2)

/-- The function `Extension::SourceExists`. -/
def Extension.SourceExists (ext : Extension) (src : String) : Bool := ext.datasources.count src

/-- The function `Extension::createTimer`. -/
def createTimer (src : DataSource) : DataSource :=
  if src.enabled && src.timer.isNone then { src with timer := some { interval := src.rate } }
  else src

/-- The function `Extension::AddSubscriber`. -/
def Extension.AddSubscriber (E : Env) (ext : Extension) (subscriber : Nat) (src : String) :
    Bool × Extension :=
  if subscriber = 0 then (false, ext)
  else match ext.datasources.find src with
    | none => (false, ext)
    | some dsrc =>
      if dsrc.rate == E.QUASAR_POLLING_CLIENT then (false, ext)
      else
        let d1 := { dsrc with subscribers := setInsert subscriber dsrc.subscribers }
        let d2 := if d1.rate > E.QUASAR_POLLING_CLIENT then createTimer d1 else d1
        (true, { ext with datasources := ext.datasources.assign src d2 })

/-- The body of the loop of `RemoveSubscriber` for one source. -/
def unsubscribe (subscriber : Nat) (dsrc : DataSource) : DataSource :=
  let d1 := { dsrc with subscribers := setErase subscriber dsrc.subscribers }
  if d1.subscribers.isEmpty then { d1 with timer := none } else d1

/-- The function `Extension::RemoveSubscriber`. -/
def Extension.RemoveSubscriber (ext : Extension) (subscriber : Nat) : Extension :=
  if subscriber = 0 then ext
  else { ext with datasources := ext.datasources.map fun kd => (kd.1, unsubscribe subscriber kd.2) }

/-- The function `Extension::sendDataToSubscribers(src)` on the source it is
handed; `extName` is `GetName()`. -/
def sendDataToSubscribers (E : Env) (extName : String) (s : Sys) (src : DataSource) :
    DataSource × Sys :=
  let r : DataSource × Sys :=
    if !src.subscribers.isEmpty then
      let g := getDataFromSource E s Envelope.init src ""
      (g.2.2.1, g.2.2.2.log (Event.PublishData (extName ++ "/" ++ src.name) g.2.1))
    else (src, s)
  match r.1.locks with
  | some _ => ({ r.1 with locks := some { processed := true } }, r.2.log (Event.notify_one src.name))
  | none => r

/-- A call `sendDataToSubscribers(datasources[src])`, as a timer or a signal of
the module makes it; a name that is not registered gives no call. -/
def Extension.sendDataToSubscribers (E : Env) (ext : Extension) (s : Sys) (src : String) :
    Extension × Sys :=
  match ext.datasources.find src with
  | none => (ext, s)
  | some dsrc =>
    let r := Quasar.sendDataToSubscribers E ext.name s dsrc
    ({ ext with datasources := ext.datasources.assign src r.1 }, r.2)

/-- The error entry for a name that is not registered. -/
def unknownSourceMsg (src extName : String) : String :=
  "Unknown data source " ++ src ++ " requested in extension " ++ extName

/-- The error entry for a failed retrieval. -/
def failedSourceMsg (src extName : String) : String :=
  "getDataFromSource(" ++ src ++ ") failed in extension " ++ extName

/-- One iteration of the loop of `PollDataForSending`. -/
def pollStep (E : Env) (args : String) (client : Nat) (st : Envelope × Extension × Sys)
    (src : String) : Envelope × Extension × Sys :=
  match st.2.1.datasources.find src with
  | none =>
    ({ st.1 with errors := st.1.errors ++ [unknownSourceMsg src st.2.1.name] }, st.2.1, st.2.2)
  | some dsrc =>
    let g := getDataFromSource E st.2.2 st.1 dsrc args
    match g.1 with
    | GET_DATA_FAILED =>
      ({ g.2.1 with errors := g.2.1.errors ++ [failedSourceMsg src st.2.1.name] },
        { st.2.1 with datasources := st.2.1.datasources.assign src g.2.2.1 }, g.2.2.2)
    | GET_DATA_DELAYED =>
      (g.2.1,
        { st.2.1 with datasources := st.2.1.datasources.assign src (
            { g.2.2.1 with pollqueue := setInsert client g.2.2.1.pollqueue }) }, g.2.2.2)
    | GET_DATA_SUCCESS =>
      (g.2.1, { st.2.1 with datasources := st.2.1.datasources.assign src g.2.2.1 }, g.2.2.2)

/-- The function `Extension::PollDataForSending(sources, args, client)`; the
envelope stands for the message dumped from it. -/
def Extension.PollDataForSending (E : Env) (ext : Extension) (s : Sys) (sources : List String)
    (args : String) (client : Nat) : Envelope × Extension × Sys :=
  sources.foldl (pollStep E args client) (Envelope.init, ext, s)

/-- The function `Extension::Initialize`; an exception is an `Except.error`
next to the state the call leaves behind. -/
def Extension.Initialize (E : Env) (ext : Extension) (s : Sys) :
    Except String Unit × Extension × Sys :=
  if !ext.initialized then
    if !E.init s.trace then (.error "extension init() failed", ext, s.log Event.init)
    else (.ok (), { ext with initialized := true }, s.log Event.init)
  else (.ok (), ext, s)

/-- An action of the destructor. -/
inductive DtorStep where
  | shutdown
  | timer_reset (src : String)
  | locks_reset (src : String)
  | subscribers_clear (src : String)
  | destroyFunc
  deriving DecidableEq, Repr

/-- The destructor `Extension::~Extension`, as the sequence of its actions. -/
def Extension.dtor (ext : Extension) : List DtorStep :=
  (if ext.extensionInfo.shutdown then [DtorStep.shutdown] else []) ++
  (ext.datasources.map fun kd =>
    [DtorStep.timer_reset kd.1, DtorStep.locks_reset kd.1, DtorStep.subscribers_clear kd.1]).flatten ++
  [DtorStep.destroyFunc]

/-- States of an `Extension` reachable after construction through the public
calls and the push path, whatever the rest of the process does in between. -/
inductive Reachable (E : Env) : Extension → Prop where
  | ctor (p : Option quasar_ext_info_t) (path : String) (s s1 : Sys) (ext : Extension) :
      Extension.ctor E p path s = .ok (ext, s1) → Reachable E ext
  | add (ext : Extension) (c : Nat) (n : String) :
      Reachable E ext → Reachable E (ext.AddSubscriber E c n).2
  | remove (ext : Extension) (c : Nat) :
      Reachable E ext → Reachable E (ext.RemoveSubscriber c)
  | poll (ext : Extension) (s : Sys) (ns : List String) (args : String) (c : Nat) :
      Reachable E ext → Reachable E (ext.PollDataForSending E s ns args c).2.1
  | send (ext : Extension) (s : Sys) (n : String) :
      Reachable E ext → Reachable E (ext.sendDataToSubscribers E s n).1
  | init (ext : Extension) (s : Sys) :
      Reachable E ext → Reachable E (ext.Initialize E s).2.1

/-- What `QLibrary` yields for a library path: whether the library loads,
whether `quasar_ext_load` resolves and, if so, the descriptor a call of it
returns (`none` for a null pointer), whether `quasar_ext_destroy` resolves. -/
structure QLibrary where
  load : Bool
  quasar_ext_load : Option (Option quasar_ext_info_t)
  quasar_ext_destroy : Bool

/-- The function `Extension::Load(libpath, cfg, srv)`: the extension, or `none`
for `nullptr`, and the process state after the call. An exception of the
constructor is caught here; the constructor throws before it changes
anything, so the process state is then the one before the call. -/
def Extension.Load (E : Env) (lib : QLibrary) (libpath : String) (s : Sys) :
    Option Extension × Sys :=
  if !lib.load then (none, s)
  else match lib.quasar_ext_load with
    | none => (none, s)
    | some p =>
      if !lib.quasar_ext_destroy then (none, s)
      else match p with
        | none => (none, s)
        | some info =>
          if !info.init || !info.shutdown || !info.get_data || info.fields.isNone ||
              info.dataSources.isNone then (none, s)
          else match Extension.ctor E (some info) libpath s with
            | .ok r => (some r.1, r.2)
            | .error _ => (none, s)

/-! ## Notions used in the statements -/

/-- What holds of every data source `d` of a reachable extension, registered
under the key `k`: its name is its key; it is enabled; it has a timer exactly
when its rate exceeds `QUASAR_POLLING_CLIENT` and it has a subscriber; a
client polled source has no subscriber; it has a rendezvous exactly when it is
signaled; the null handle is no subscriber. -/
structure DataSource.WF (E : Env) (k : String) (d : DataSource) : Prop where
  named : d.name = k
  enabled : d.enabled = true
  timer : d.timer.isSome = true ↔ (d.rate > E.QUASAR_POLLING_CLIENT ∧ d.subscribers ≠ [])
  client : d.rate = E.QUASAR_POLLING_CLIENT → d.subscribers = []
  locks : d.locks.isSome = true ↔ d.rate = E.QUASAR_POLLING_SIGNALED
  nonnull : 0 ∉ d.subscribers

/-- Every data source of the map satisfies the invariant. -/
def SourceMap.AllWF (E : Env) (m : SourceMap) : Prop := ∀ kd ∈ m, kd.2.WF E kd.1

/-- The source `AddSubscriber` writes back when it accepts the subscriber. -/
def subscribed (E : Env) (subscriber : Nat) (dsrc : DataSource) : DataSource :=
  if dsrc.rate > E.QUASAR_POLLING_CLIENT then
    createTimer { dsrc with subscribers := setInsert subscriber dsrc.subscribers }
  else { dsrc with subscribers := setInsert subscriber dsrc.subscribers }

/-- The extension with the entry of source `n` replaced by `d`. -/
def Extension.withSource (ext : Extension) (n : String) (d : DataSource) : Extension :=
  { ext with datasources := ext.datasources.assign n d }

/-- The source with the `processed` flag of its rendezvous set. -/
def DataSource.resolved (d : DataSource) : DataSource :=
  { d with locks := some { processed := true } }

/-- The process state after `k` more calls of `notify_one` for source `n`. -/
def Sys.notified (s : Sys) (k : Nat) (n : String) : Sys :=
  { s with trace := s.trace ++ List.replicate k (Event.notify_one n) }

/-- The state after `k` calls in a row of `sendDataToSubscribers` on the source
named `n`. -/
def sendRepeat (E : Env) (n : String) : Nat → Extension × Sys → Extension × Sys
  | 0, p => p
  | k + 1, p => sendRepeat E n k (p.1.sendDataToSubscribers E p.2 n)

/-- Calls of the `get_data` hook in a trace. -/
def Event.isGetData : Event → Bool
  | .get_data _ _ => true
  | _ => false

/-- Calls of `PublishData` in a trace. -/
def Event.isPublish : Event → Bool
  | .PublishData _ _ => true
  | _ => false

/-- A run of constructions in one process, in order: the extensions that were
constructed and the process state at the end. A constructor that throws does so
before its registration loop and leaves the process state as it was. -/
def constructAll (E : Env) : List (Option quasar_ext_info_t × String) → Sys → List Extension × Sys
  | [], s => ([], s)
  | p :: rest, s =>
    match Extension.ctor E p.1 p.2 s with
    | .ok r => ((r.1 :: (constructAll E rest r.2).1), (constructAll E rest r.2).2)
    | .error _ => constructAll E rest s

/-- The uids of the registered data sources, in registration order. -/
def registeredUids (exts : List Extension) : List Nat :=
  (exts.map fun e => e.datasources.map fun kd => kd.2.uid).flatten

/-- The uid written back into the descriptor array for the source named `n`:
that of the first descriptor with this name. -/
def writtenUid (info : quasar_ext_info_t) (n : String) : Option Nat :=
  match info.dataSources with
  | none => none
  | some ds => (ds.find? fun x => x.name = n).map fun x => x.uid

/-- The state after `k` calls of `Initialize` in a row. -/
def initRepeat (E : Env) : Nat → Extension × Sys → Extension × Sys
  | 0, p => p
  | k + 1, p => initRepeat E k (p.1.Initialize E p.2).2

/-- The process state after `k` more calls of the init hook. -/
def Sys.inits (s : Sys) (k : Nat) : Sys :=
  { s with trace := s.trace ++ List.replicate k Event.init }

/-- The extension once initialised. -/
def Extension.asInitialized (ext : Extension) : Extension := { ext with initialized := true }

/-- How `RemoveSubscriber(c)` relates one entry of the map before the call to
the entry after it: same key; the subscriber set is the old one without `c`;
no timer when that set is empty, the old timer otherwise; every other field,
the cache, the pending-poll set, the enabled flag, the uid and the rendezvous
among them, is as before. -/
def Unsubscribed (c : Nat) (kd kd1 : String × DataSource) : Prop :=
  kd1.1 = kd.1 ∧
  (∀ x, x ∈ kd1.2.subscribers ↔ (x ∈ kd.2.subscribers ∧ x ≠ c)) ∧
  (kd1.2.subscribers = [] → kd1.2.timer = none) ∧
  (kd1.2.subscribers ≠ [] → kd1.2.timer = kd.2.timer) ∧
  kd1.2.cache = kd.2.cache ∧
  kd1.2.pollqueue = kd.2.pollqueue ∧
  kd1.2.enabled = kd.2.enabled ∧
  kd1.2.uid = kd.2.uid ∧
  kd1.2.locks = kd.2.locks ∧
  kd1.2.name = kd.2.name ∧
  kd1.2.rate = kd.2.rate ∧
  kd1.2.validtime = kd.2.validtime

/-- Whether a retrieval reaches the call of the `get_data` hook: the source is
enabled and the retrieval is not answered from the cache. -/
def hookCalled (E : Env) (s : Sys) (src : DataSource) : Bool :=
  src.enabled && !cacheFresh E s src

/-- The diagnostics the hook reports in a retrieval, none when the hook is not
called. -/
def diagnostics (E : Env) (s : Sys) (src : DataSource) (args : String) : List String :=
  if hookCalled E s src then (E.get_data s.trace src.uid (argPtr args)).2.errors else []

/-- The value a retrieval obtains: the cached value when the cache answers, the
value of the hook when the hook is called and succeeds with one. -/
def retrievedValue (E : Env) (s : Sys) (src : DataSource) (args : String) : Option Json :=
  if !src.enabled then none
  else if cacheFresh E s src then some src.cache.data
  else if (E.get_data s.trace src.uid (argPtr args)).1 then
    (E.get_data s.trace src.uid (argPtr args)).2.val
  else none

/-- The state `PollDataForSending` starts its loop from. -/
def pollStart (ext : Extension) (s : Sys) : Envelope × Extension × Sys := (Envelope.init, ext, s)

/-- The requirements of a load on the descriptor a module returns: it is not
null; the init, shutdown and `get_data` hooks, the field table and the
descriptor array are present; the declared API version is that of the host;
name and full name are not empty. -/
def loadable (E : Env) (p : Option quasar_ext_info_t) : Prop :=
  ∃ info f, p = some info ∧ info.init = true ∧ info.shutdown = true ∧ info.get_data = true ∧
    info.fields = some f ∧ info.dataSources.isSome = true ∧
    info.api_version = E.QUASAR_API_VERSION ∧ f.name ≠ "" ∧ f.fullname ≠ ""

/-- The map after the registration loop has registered descriptor `d`. -/
def regMap (E : Env) (d : quasar_data_source_t) (m : SourceMap) (s : Sys) : SourceMap :=
  m ++ [(d.name, newSource E d ((s.uid + 1) % 2 ^ 64) (E.now s.ticks))]

/-- The process state after the registration loop has registered descriptor `d`. -/
def regSys (E : Env) (d : quasar_data_source_t) (s : Sys) : Sys :=
  if d.rate == E.QUASAR_POLLING_CLIENT then Sys.tick { s with uid := (s.uid + 1) % 2 ^ 64 }
  else { s with uid := (s.uid + 1) % 2 ^ 64 }

/-! ## Concrete inputs used by the examples -/

/-- An environment with the header constants at `-1`, `0` and API version `1`,
an init hook that succeeds, the given `get_data` hook and the given clock,
which counts nanoseconds (`10^6` ticks in a millisecond). -/
def demoEnv (cb : List Event → Nat → Option String → Bool × quasar_return_data_t)
    (clock : Nat → Nat) : Env :=
  { QUASAR_POLLING_SIGNALED := -1
    QUASAR_POLLING_CLIENT := 0
    QUASAR_API_VERSION := 1
    init := fun _ => true
    get_data := cb
    now := clock
    ticksPerMs := 1000000 }

/-- A hook that always succeeds with the value `v` and no diagnostics. -/
def cbValue (v : Option Json) : List Event → Nat → Option String → Bool × quasar_return_data_t :=
  fun _ _ _ => (true, { val := v, errors := [] })

/-- A fresh process: counter at zero, no clock reading taken, empty trace. -/
def sys0 : Sys := { uid := 0, ticks := 0, trace := [] }

/-- A registered source named `n` with the given rate, validity time and uid,
as the constructor leaves it at clock reading `0`. -/
def demoSource (n : String) (rate : Int) (validtime uid : Nat) : DataSource :=
  newSource (demoEnv (cbValue none) id) { name := n, rate := rate, validtime := validtime, uid := 0 }
    uid 0

/-- The environment of the examples in which the hook never has a value. -/
def envNone : Env := demoEnv (cbValue none) id

/-- A descriptor that passes every check of the loader and of the constructor
under `demoEnv`, with the descriptor array `ds`. -/
def demoInfo (ds : List quasar_data_source_t) : quasar_ext_info_t :=
  { api_version := 1
    fields := some { name := "ext", fullname := "Demo", author := "", description := "",
                     version := "", url := "" }
    dataSources := some ds
    init := true
    shutdown := true
    get_data := true
    create_settings := false }

/-- The extension the constructor builds from `demoInfo ds` in a fresh process. -/
def demoExt (E : Env) (ds : List quasar_data_source_t) : Extension :=
  { extensionInfo := { demoInfo ds with dataSources := some (registerSources E ds [] sys0).1 }
    libpath := "lib"
    initialized := false
    name := "ext"
    fullname := "Demo"
    author := ""
    description := ""
    version := ""
    url := ""
    datasources := (registerSources E ds [] sys0).2.1 }

/-- The signaled source `S` alone, as a descriptor array. -/
def oneSignaled : List quasar_data_source_t :=
  [{ name := "S", rate := -1, validtime := 0, uid := 0 }]

/-- The client polled sources `A` and `B`, as a descriptor array. -/
def sourcesAB : List quasar_data_source_t :=
  [{ name := "A", rate := 0, validtime := 0, uid := 0 },
   { name := "B", rate := 0, validtime := 0, uid := 0 }]

/-- An environment whose hook has the value `42` for uid `1` and no value for
any other uid, without diagnostics. -/
def envAB : Env :=
  demoEnv (fun _ uid _ =>
    if uid = 1 then (true, { val := some (Json.num 42), errors := [] })
    else (true, { val := none, errors := [] })) id

/-- A run of three constructions: a module that declares `A`, `B` and `A`
again, a null descriptor, a module that declares `C`. -/
def demoRun : List (Option quasar_ext_info_t × String) :=
  [(some (demoInfo [{ name := "A", rate := 0, validtime := 500, uid := 0 },
                    { name := "B", rate := -1, validtime := 0, uid := 0 },
                    { name := "A", rate := 1000, validtime := 0, uid := 77 }]), "one"),
   (none, "two"),
   (some (demoInfo [{ name := "C", rate := 1000, validtime := 0, uid := 0 }]), "three")]

/-- The environment of the examples with an init hook that always fails. -/
def envInitFails : Env := { envNone with init := fun _ => false }

/-- An extension with the fixed interval sources `T` (subscribers `7`, `8`) and
`U` (subscriber `7`), both with a running timer, and the client polled source
`P` with a cached value and a pending poll. -/
def extSubscribed : Extension :=
  { demoExt envNone [] with
    datasources :=
      [("T", { demoSource "T" 1000 0 1 with subscribers := [7, 8], timer := some { interval := 1000 } }),
       ("U", { demoSource "U" 2000 0 2 with subscribers := [7], timer := some { interval := 2000 } }),
       ("P", { demoSource "P" 0 500 3 with
                 cache := { data := Json.num 5, expiry := 900 }, pollqueue := [9] })] }

/-- The fixed interval source `T` (period 1000 ms) alone, as a descriptor array. -/
def oneInterval : List quasar_data_source_t :=
  [{ name := "T", rate := 1000, validtime := 0, uid := 0 }]

/-- The extension with the fixed interval source `T` after client `7` has
subscribed to it. -/
def extPushing : Extension := ((demoExt envNone oneInterval).AddSubscriber envNone 7 "T").2

/-- A library that loads and resolves both entry points, with `p` the
descriptor its `quasar_ext_load` returns. -/
def libOf (p : Option quasar_ext_info_t) : QLibrary :=
  { load := true, quasar_ext_load := some p, quasar_ext_destroy := true }

/-- A descriptor that declares API version `2` (the host of the examples has
version `1`) and is in order otherwise. -/
def infoWrongVersion : quasar_ext_info_t := { demoInfo oneInterval with api_version := 2 }

/-- An environment whose clock reads `1000` at every call and whose hook always
has the value `7`. -/
def envFrozen : Env := demoEnv (cbValue (some (Json.num 7))) (fun _ => 1000)

/-- The client polled source `A` with a validity time of 500 ms, as a descriptor
array. -/
def onePolled : List quasar_data_source_t :=
  [{ name := "A", rate := 0, validtime := 500, uid := 0 }]

/-- An environment whose hook reports the diagnostics `w1`, `w2` with every
answer: for uid `1` it succeeds with the value `7`, for uid `2` it succeeds
without a value, for any other uid it fails. -/
def envDiag : Env :=
  demoEnv (fun _ uid _ =>
    if uid = 1 then (true, { val := some (Json.num 7), errors := ["w1", "w2"] })
    else if uid = 2 then (true, { val := none, errors := ["w1", "w2"] })
    else (false, { val := none, errors := ["w1", "w2"] })) id

/-- An envelope that already holds the error entry `e0`. -/
def envelopeE0 : Envelope := { data := [], errors := ["e0"] }

/-- A descriptor array in which the name `A` occurs twice, first as a client
polled source with a validity time of 500 ms, later with rate 1000. -/
def sourcesRepeated : List quasar_data_source_t :=
  [{ name := "A", rate := 0, validtime := 500, uid := 0 },
   { name := "B", rate := -1, validtime := 0, uid := 0 },
   { name := "A", rate := 1000, validtime := 0, uid := 77 }]

@[simp] theorem Sys.tick_trace (s : Sys) : s.tick.trace = s.trace := rfl

@[simp] theorem Sys.tick_ticks (s : Sys) : s.tick.ticks = s.ticks + 1 := rfl

@[simp] theorem Sys.tick_uid (s : Sys) : s.tick.uid = s.uid := rfl

@[simp] theorem Sys.log_trace (s : Sys) (e : Event) : (s.log e).trace = s.trace ++ [e] := rfl

@[simp] theorem Sys.log_ticks (s : Sys) (e : Event) : (s.log e).ticks = s.ticks := rfl

@[simp] theorem Sys.log_uid (s : Sys) (e : Event) : (s.log e).uid = s.uid := rfl

theorem Sys.ite_tick_trace (c : Bool) (s : Sys) : (if c then s.tick else s).trace = s.trace := by
  cases c <;> rfl

theorem mergeErrors_errors (msg : Envelope) (errs : List String) :
    (mergeErrors msg errs).errors = msg.errors ++ errs := by
  unfold mergeErrors
  cases errs <;> simp

@[simp] theorem mergeErrors_data (msg : Envelope) (errs : List String) :
    (mergeErrors msg errs).data = msg.data := by
  unfold mergeErrors
  cases errs <;> simp

/-- What a retrieval does once the module has been asked: outcome, envelope,
source and process state as a function of the answer `r` of the hook. -/
theorem getDataFromSource_polled (E : Env) (s : Sys) (msg : Envelope) (src : DataSource)
    (args : String) (hen : src.enabled = true) (hmiss : cacheFresh E s src = false) :
    getDataFromSource E s msg src args =
      (let s1 := if src.cached E then s.tick else s
       let r := E.get_data s.trace src.uid (argPtr args)
       let s2 := s1.log (Event.get_data src.uid (argPtr args))
       let msg1 := mergeErrors msg r.2.errors
       if !r.1 then (GET_DATA_FAILED, msg1, src, s2)
       else match r.2.val with
         | none =>
           if src.rate == E.QUASAR_POLLING_CLIENT then (GET_DATA_DELAYED, msg1, src, s2)
           else (GET_DATA_FAILED, msg1, src, s2)
         | some v =>
           if v.is_null then (GET_DATA_SUCCESS, msg1, src, s2)
           else if src.cached E then
             (GET_DATA_SUCCESS, { msg1 with data := msg1.data.set src.name v },
               { src with cache := { data := v,
                                     expiry := expiryAfter E (E.now s2.ticks) src.validtime } },
               s2.tick)
           else (GET_DATA_SUCCESS, { msg1 with data := msg1.data.set src.name v }, src, s2)) := by
  unfold getDataFromSource
  simp only [hen, hmiss, Sys.ite_tick_trace]
  simp

/-- A retrieval answered from the cache. -/
theorem getDataFromSource_fresh (E : Env) (s : Sys) (msg : Envelope) (src : DataSource)
    (args : String) (hen : src.enabled = true) (hfresh : cacheFresh E s src = true) :
    getDataFromSource E s msg src args =
      (GET_DATA_SUCCESS, { msg with data := msg.data.set src.name src.cache.data }, src, s.tick) := by
  unfold getDataFromSource
  simp [hen, hfresh]

/-- A retrieval from a disabled source. -/
theorem getDataFromSource_disabled (E : Env) (s : Sys) (msg : Envelope) (src : DataSource)
    (args : String) (hen : src.enabled = false) :
    getDataFromSource E s msg src args = (GET_DATA_FAILED, msg, src, s) := by
  unfold getDataFromSource
  simp [hen]

theorem JObject.get_set (o : JObject) (k : String) (v : Json) : (o.set k v).get k = some v := by
  induction o with
  | nil => simp [JObject.set, JObject.get]
  | cons p rest ih =>
    obtain ⟨k1, w⟩ := p
    by_cases h : k1 = k
    · simp [JObject.set, JObject.get, h]
    · simp [JObject.set, JObject.get, h, ih]

/-! ## The source map -/

theorem SourceMap.find_mem {m : SourceMap} {n : String} {d : DataSource}
    (h : m.find n = some d) : (n, d) ∈ m := by
  induction m with
  | nil => simp [SourceMap.find] at h
  | cons p rest ih =>
    obtain ⟨k, e⟩ := p
    by_cases hk : k = n
    · simp [SourceMap.find, hk] at h
      simp [hk, h]
    · simp [SourceMap.find, hk] at h
      exact List.mem_cons_of_mem _ (ih h)

theorem SourceMap.mem_assign {m : SourceMap} {n : String} {e : DataSource} {kd : String × DataSource}
    (h : kd ∈ m.assign n e) : kd ∈ m ∨ kd = (n, e) := by
  induction m with
  | nil => simp [SourceMap.assign] at h
  | cons p rest ih =>
    obtain ⟨k, d⟩ := p
    by_cases hk : k = n
    · simp [SourceMap.assign, hk] at h
      rcases h with h | h
      · right; exact h
      · left; exact List.mem_cons_of_mem _ h
    · simp [SourceMap.assign, hk] at h
      rcases h with h | h
      · left; simp [h]
      · rcases ih h with h1 | h1
        · left; exact List.mem_cons_of_mem _ h1
        · right; exact h1

theorem SourceMap.assign_self {m : SourceMap} {n : String} {d : DataSource}
    (h : m.find n = some d) : m.assign n d = m := by
  induction m with
  | nil => rfl
  | cons p rest ih =>
    obtain ⟨k, e⟩ := p
    by_cases hk : k = n
    · simp [SourceMap.find, hk] at h
      simp [SourceMap.assign, hk, h]
    · simp [SourceMap.find, hk] at h
      simp [SourceMap.assign, hk, ih h]

theorem SourceMap.find_assign {m : SourceMap} {n : String} {d : DataSource} (e : DataSource)
    (h : m.find n = some d) : (m.assign n e).find n = some e := by
  induction m with
  | nil => simp [SourceMap.find] at h
  | cons p rest ih =>
    obtain ⟨k, x⟩ := p
    by_cases hk : k = n
    · simp [SourceMap.find, SourceMap.assign, hk]
    · simp [SourceMap.find, hk] at h
      simp [SourceMap.find, SourceMap.assign, hk, ih h]

theorem SourceMap.assign_assign (m : SourceMap) (n : String) (e1 e2 : DataSource) :
    (m.assign n e1).assign n e2 = m.assign n e2 := by
  induction m with
  | nil => rfl
  | cons p rest ih =>
    obtain ⟨k, x⟩ := p
    by_cases hk : k = n
    · simp [SourceMap.assign, hk]
    · simp [SourceMap.assign, hk, ih]

theorem SourceMap.find_append (m : SourceMap) (k : String) (d : DataSource) (n : String) :
    (m ++ [(k, d)]).find n = match m.find n with
      | some e => some e
      | none => if k = n then some d else none := by
  induction m with
  | nil => simp [SourceMap.find]
  | cons p rest ih =>
    obtain ⟨k1, e⟩ := p
    by_cases hk : k1 = n
    · simp [SourceMap.find, hk]
    · simp [SourceMap.find, hk, ih]

theorem SourceMap.find_assign_ne (m : SourceMap) {n k : String} (e : DataSource) (h : k ≠ n) :
    (m.assign k e).find n = m.find n := by
  induction m with
  | nil => rfl
  | cons p rest ih =>
    obtain ⟨k1, x⟩ := p
    by_cases hk : k1 = k
    · subst hk
      simp [SourceMap.find, SourceMap.assign, h]
    · by_cases hn : k1 = n
      · subst hn
        simp [SourceMap.find, SourceMap.assign, hk]
      · simp [SourceMap.find, SourceMap.assign, hk, hn, ih]

/-! ## Frame of a retrieval and of a push -/

/-- A retrieval changes nothing of a source but its cache. -/
theorem getDataFromSource_frame (E : Env) (s : Sys) (msg : Envelope) (src : DataSource)
    (args : String) :
    ∃ c : DataCache, (getDataFromSource E s msg src args).2.2.1 = { src with cache := c } := by
  unfold getDataFromSource
  simp only []
  repeat' split
  all_goals first | exact ⟨src.cache, rfl⟩ | exact ⟨_, rfl⟩

/-- A push changes nothing of a source but its cache and the flag of its
rendezvous, which it sets when the source has a rendezvous. -/
theorem sendDataToSubscribers_frame (E : Env) (extName : String) (s : Sys) (src : DataSource) :
    ∃ c : DataCache, (sendDataToSubscribers E extName s src).1 =
      { src with cache := c, locks := src.locks.map fun _ => { processed := true } } := by
  unfold sendDataToSubscribers
  by_cases hs : src.subscribers.isEmpty = true
  · simp only [hs]
    cases hl : src.locks
    · exact ⟨src.cache, by simp [hl]; rw [← hl]⟩
    · exact ⟨src.cache, by simp [hl]⟩
  · simp only [hs]
    obtain ⟨c, hc⟩ := getDataFromSource_frame E s Envelope.init src ""
    generalize getDataFromSource E s Envelope.init src "" = g at hc
    refine ⟨c, ?_⟩
    cases hl : src.locks
    · simp [hc, hl]
    · simp [hc, hl]

/-! ## The envelope after a retrieval -/

/-- A retrieval appends the diagnostics of the hook to the error list, and
nothing else. -/
theorem getDataFromSource_errors (E : Env) (s : Sys) (msg : Envelope) (src : DataSource)
    (args : String) :
    (getDataFromSource E s msg src args).2.1.errors = msg.errors ++ diagnostics E s src args := by
  unfold diagnostics hookCalled
  cases hen : src.enabled
  · rw [getDataFromSource_disabled E s msg src args hen]; simp
  · cases hfr : cacheFresh E s src
    · rw [getDataFromSource_polled E s msg src args hen hfr]
      simp only [Bool.not_false, Bool.and_self, if_true]
      split
      · exact mergeErrors_errors _ _
      · split
        · split <;> exact mergeErrors_errors _ _
        · split
          · exact mergeErrors_errors _ _
          · split <;> exact mergeErrors_errors _ _
    · rw [getDataFromSource_fresh E s msg src args hen hfr]; simp

/-- A retrieval that does not succeed writes no data key. -/
theorem getDataFromSource_data_of_ne_success (E : Env) (s : Sys) (msg : Envelope)
    (src : DataSource) (args : String)
    (h : (getDataFromSource E s msg src args).1 ≠ GET_DATA_SUCCESS) :
    (getDataFromSource E s msg src args).2.1.data = msg.data := by
  cases hen : src.enabled
  · rw [getDataFromSource_disabled E s msg src args hen]
  · cases hfr : cacheFresh E s src
    · rw [getDataFromSource_polled E s msg src args hen hfr] at h ⊢
      simp only [] at h ⊢
      split
      · exact mergeErrors_data _ _
      · rename_i hok
        rw [if_neg hok] at h
        split
        · split <;> exact mergeErrors_data _ _
        · rename_i v hv
          simp only [hv] at h
          split
          · exact mergeErrors_data _ _
          · rename_i hnull
            rw [if_neg hnull] at h
            split at h <;> exact absurd rfl h
    · rw [getDataFromSource_fresh E s msg src args hen hfr] at h
      exact absurd rfl h

/-- A retrieval that obtains a non-null value writes it under the name of the
source. -/
theorem getDataFromSource_data_of_value (E : Env) (s : Sys) (msg : Envelope)
    (src : DataSource) (args : String) (v : Json)
    (hv : retrievedValue E s src args = some v) (hnull : v.is_null = false) :
    (getDataFromSource E s msg src args).1 = GET_DATA_SUCCESS ∧
    (getDataFromSource E s msg src args).2.1.data = msg.data.set src.name v := by
  unfold retrievedValue at hv
  cases hen : src.enabled
  · simp [hen] at hv
  · cases hfr : cacheFresh E s src
    · rw [getDataFromSource_polled E s msg src args hen hfr]
      simp only [hen, hfr, Bool.not_true, Bool.false_eq_true, if_false] at hv
      cases hok : (E.get_data s.trace src.uid (argPtr args)).1
      · simp [hok] at hv
      · simp only [hok, if_true] at hv
        simp only [hok, Bool.not_true, Bool.false_eq_true, if_false, hv, hnull]
        split <;> simp
    · rw [getDataFromSource_fresh E s msg src args hen hfr]
      simp only [hen, hfr, Bool.not_true, Bool.false_eq_true, if_false, if_true,
        Option.some.injEq] at hv
      rw [hv]
      exact ⟨rfl, rfl⟩

/-- A retrieval of an enabled source that the cache does not answer calls the
hook exactly once. -/
theorem getDataFromSource_trace_of_called (E : Env) (s : Sys) (msg : Envelope)
    (src : DataSource) (args : String) (hen : src.enabled = true)
    (hmiss : cacheFresh E s src = false) :
    (getDataFromSource E s msg src args).2.2.2.trace =
      s.trace ++ [Event.get_data src.uid (argPtr args)] := by
  rw [getDataFromSource_polled E s msg src args hen hmiss]
  simp only []
  split
  · simp [Sys.ite_tick_trace]
  · split
    · split <;> simp [Sys.ite_tick_trace]
    · split
      · simp [Sys.ite_tick_trace]
      · split <;> simp [Sys.ite_tick_trace]

/-! ## The invariant of reachable extensions -/

theorem DataSource.WF.congr {E : Env} {k : String} {d e : DataSource} (h : d.WF E k)
    (h0 : e.name = d.name)
    (h1 : e.enabled = d.enabled) (h2 : e.timer = d.timer) (h3 : e.rate = d.rate)
    (h4 : e.subscribers = d.subscribers) (h5 : e.locks.isSome = d.locks.isSome) : e.WF E k := by
  constructor
  · rw [h0]; exact h.named
  · rw [h1]; exact h.enabled
  · rw [h2, h3, h4]; exact h.timer
  · rw [h3, h4]; exact h.client
  · rw [h5, h3]; exact h.locks
  · rw [h4]; exact h.nonnull

theorem newSource_WF (E : Env) (d : quasar_data_source_t) (uid now : Nat) :
    (newSource E d uid now).WF E d.name := by
  constructor
  · rfl
  · rfl
  · simp [newSource]
  · intro _; rfl
  · by_cases h : d.rate = E.QUASAR_POLLING_SIGNALED <;> simp [newSource, h]
  · simp [newSource]

theorem setInsert_ne_nil (x : Nat) (xs : List Nat) : setInsert x xs ≠ [] := by
  unfold setInsert
  split
  · rename_i h
    exact List.ne_nil_of_mem h
  · simp

theorem mem_setInsert {x y : Nat} {xs : List Nat} : y ∈ setInsert x xs ↔ y = x ∨ y ∈ xs := by
  unfold setInsert
  split
  · rename_i h
    constructor
    · intro hy; exact Or.inr hy
    · rintro (rfl | hy)
      · exact h
      · exact hy
  · simp [or_comm]

theorem mem_setErase {x y : Nat} {xs : List Nat} : y ∈ setErase x xs ↔ y ∈ xs ∧ y ≠ x := by
  simp [setErase]

theorem subscribed_WF {E : Env} {k : String} {c : Nat} {d : DataSource} (h : d.WF E k)
    (hc : c ≠ 0) (hr : d.rate ≠ E.QUASAR_POLLING_CLIENT) : (subscribed E c d).WF E k := by
  have hmem : 0 ∉ setInsert c d.subscribers := by
    simp only [mem_setInsert, not_or]
    exact ⟨fun e => hc e.symm, h.nonnull⟩
  unfold subscribed
  by_cases hgt : d.rate > E.QUASAR_POLLING_CLIENT
  · rw [if_pos hgt]
    unfold createTimer
    cases ht : d.timer
    · rw [if_pos (by simp [h.enabled, ht])]
      exact ⟨h.named, h.enabled, by simp [hgt, setInsert_ne_nil], fun hh => absurd hh hr, h.locks,
        hmem⟩
    · rw [if_neg (by simp [ht])]
      exact ⟨h.named, h.enabled, by simp [ht, hgt, setInsert_ne_nil], fun hh => absurd hh hr,
        h.locks, hmem⟩
  · rw [if_neg hgt]
    have hnone : d.timer.isSome = false := by
      cases hs : d.timer.isSome
      · rfl
      · exact absurd (h.timer.mp hs).1 hgt
    exact ⟨h.named, h.enabled, by simp [hnone, hgt], fun hh => absurd hh hr, h.locks, hmem⟩

theorem unsubscribe_WF {E : Env} {k : String} {c : Nat} {d : DataSource} (h : d.WF E k) :
    (unsubscribe c d).WF E k := by
  unfold unsubscribe
  by_cases he : (setErase c d.subscribers).isEmpty = true
  · rw [if_pos he]
    have he1 : setErase c d.subscribers = [] := List.isEmpty_iff.mp he
    exact ⟨h.named, h.enabled, by simp [he1], fun _ => he1, h.locks, by simp [he1]⟩
  · rw [if_neg he]
    have he1 : setErase c d.subscribers ≠ [] := fun e => he (List.isEmpty_iff.mpr e)
    have hne : d.subscribers ≠ [] := by
      intro e
      apply he1
      simp [setErase, e]
    refine ⟨h.named, h.enabled, ?_, fun hr => absurd (h.client hr) hne, h.locks, ?_⟩
    · show d.timer.isSome = true ↔ (d.rate > E.QUASAR_POLLING_CLIENT ∧ setErase c d.subscribers ≠ [])
      rw [h.timer]
      simp [hne, he1]
    · show 0 ∉ setErase c d.subscribers
      simp only [mem_setErase, not_and]
      intro h0
      exact absurd h0 h.nonnull

theorem Extension.AddSubscriber_eq (E : Env) (ext : Extension) (c : Nat) (n : String) :
    ext.AddSubscriber E c n =
      if c = 0 then (false, ext)
      else match ext.datasources.find n with
        | none => (false, ext)
        | some d =>
          if d.rate == E.QUASAR_POLLING_CLIENT then (false, ext)
          else (true, { ext with datasources := ext.datasources.assign n (subscribed E c d) }) := by
  unfold Extension.AddSubscriber subscribed
  rfl

theorem SourceMap.AllWF.assign {E : Env} {m : SourceMap} (h : m.AllWF E) (n : String)
    {e : DataSource} (he : e.WF E n) : (m.assign n e).AllWF E := by
  intro kd hkd
  rcases SourceMap.mem_assign hkd with h1 | h1
  · exact h kd h1
  · rw [h1]; exact he

theorem registerSources_AllWF (E : Env) (ds : List quasar_data_source_t) :
    ∀ (m : SourceMap) (s : Sys), m.AllWF E → (registerSources E ds m s).2.1.AllWF E := by
  induction ds with
  | nil => intro m s h; exact h
  | cons d rest ih =>
    intro m s h
    unfold registerSources
    split
    · exact ih m s h
    · apply ih
      intro kd hkd
      rcases List.mem_append.mp hkd with h1 | h1
      · exact h kd h1
      · simp only [List.mem_singleton] at h1
        rw [h1]
        exact newSource_WF E d _ _

theorem Extension.ctor_AllWF {E : Env} {p : Option quasar_ext_info_t} {path : String}
    {s s1 : Sys} {ext : Extension} (h : Extension.ctor E p path s = .ok (ext, s1)) :
    ext.datasources.AllWF E := by
  unfold Extension.ctor at h
  split at h
  · simp at h
  · split at h
    · simp at h
    · split at h
      · simp at h
      · split at h
        · simp at h
        · simp only [Except.ok.injEq, Prod.mk.injEq] at h
          rw [← h.1]
          split
          · intro kd hkd; simp at hkd
          · exact registerSources_AllWF E _ [] s (fun kd hkd => by simp at hkd)

theorem Extension.AddSubscriber_AllWF {E : Env} {ext : Extension} (h : ext.datasources.AllWF E)
    (c : Nat) (n : String) : (ext.AddSubscriber E c n).2.datasources.AllWF E := by
  rw [Extension.AddSubscriber_eq]
  by_cases hc : c = 0
  · rw [if_pos hc]; exact h
  · rw [if_neg hc]
    cases hf : ext.datasources.find n with
    | none => exact h
    | some d =>
      simp only []
      by_cases hr : (d.rate == E.QUASAR_POLLING_CLIENT) = true
      · rw [if_pos hr]; exact h
      · rw [if_neg hr]
        have hd := h _ (SourceMap.find_mem hf)
        have hr1 : d.rate ≠ E.QUASAR_POLLING_CLIENT := by simpa using hr
        exact h.assign n (subscribed_WF hd hc hr1)

theorem Extension.RemoveSubscriber_AllWF {E : Env} {ext : Extension}
    (h : ext.datasources.AllWF E) (c : Nat) : (ext.RemoveSubscriber c).datasources.AllWF E := by
  unfold Extension.RemoveSubscriber
  by_cases hc : c = 0
  · rw [if_pos hc]; exact h
  · rw [if_neg hc]
    intro kd hkd
    simp only [List.mem_map] at hkd
    obtain ⟨kd0, h0, rfl⟩ := hkd
    exact unsubscribe_WF (h kd0 h0)

theorem getDataFromSource_WF {E : Env} {k : String} {src : DataSource} (h : src.WF E k)
    (s : Sys) (msg : Envelope) (args : String) :
    (getDataFromSource E s msg src args).2.2.1.WF E k := by
  obtain ⟨c, hc⟩ := getDataFromSource_frame E s msg src args
  rw [hc]
  exact h.congr rfl rfl rfl rfl rfl rfl

theorem sendDataToSubscribers_WF {E : Env} {k : String} {src : DataSource} (h : src.WF E k)
    (n : String) (s : Sys) : (sendDataToSubscribers E n s src).1.WF E k := by
  obtain ⟨c, hc⟩ := sendDataToSubscribers_frame E n s src
  rw [hc]
  refine h.congr rfl rfl rfl rfl rfl ?_
  cases src.locks <;> rfl

theorem pollStep_AllWF {E : Env} (args : String) (client : Nat)
    (st : Envelope × Extension × Sys) (n : String) (h : st.2.1.datasources.AllWF E) :
    (pollStep E args client st n).2.1.datasources.AllWF E := by
  unfold pollStep
  cases hf : st.2.1.datasources.find n with
  | none => exact h
  | some d =>
    simp only []
    have hd := getDataFromSource_WF (h _ (SourceMap.find_mem hf)) st.2.2 st.1 args
    split
    · exact h.assign n hd
    · exact h.assign n (hd.congr rfl rfl rfl rfl rfl rfl)
    · exact h.assign n hd

theorem pollFold_AllWF {E : Env} (args : String) (client : Nat) (ns : List String) :
    ∀ st : Envelope × Extension × Sys, st.2.1.datasources.AllWF E →
      (ns.foldl (pollStep E args client) st).2.1.datasources.AllWF E := by
  induction ns with
  | nil => intro st h; exact h
  | cons n rest ih =>
    intro st h
    exact ih _ (pollStep_AllWF args client st n h)

/-- Every data source of a reachable extension satisfies the invariant. -/
theorem Reachable.allWF {E : Env} {ext : Extension} (h : Reachable E ext) :
    ext.datasources.AllWF E := by
  induction h with
  | ctor p path s s1 ext h => exact Extension.ctor_AllWF h
  | add ext c n _ ih => exact Extension.AddSubscriber_AllWF ih c n
  | remove ext c _ ih => exact Extension.RemoveSubscriber_AllWF ih c
  | poll ext s ns args c _ ih => exact pollFold_AllWF args c ns _ ih
  | send ext s n _ ih =>
    unfold Extension.sendDataToSubscribers
    cases hf : ext.datasources.find n with
    | none => exact ih
    | some d => exact ih.assign n (sendDataToSubscribers_WF (ih _ (SourceMap.find_mem hf)) _ s)
  | init ext s _ ih =>
    unfold Extension.Initialize
    split
    · split <;> exact ih
    · exact ih

theorem demoExt_ctor (cb : List Event → Nat → Option String → Bool × quasar_return_data_t)
    (clock : Nat → Nat) (ds : List quasar_data_source_t) :
    Extension.ctor (demoEnv cb clock) (some (demoInfo ds)) "lib" sys0 =
      .ok (demoExt (demoEnv cb clock) ds, (registerSources (demoEnv cb clock) ds [] sys0).2.2) := by
  rfl

theorem demoExt_reachable (cb : List Event → Nat → Option String → Bool × quasar_return_data_t)
    (clock : Nat → Nat) (ds : List quasar_data_source_t) :
    Reachable (demoEnv cb clock) (demoExt (demoEnv cb clock) ds) :=
  Reachable.ctor _ _ _ _ _ (demoExt_ctor cb clock ds)

/-! ## C1: a callback that succeeds with an explicit null -/

/-- C1, as stated, fails: for the enabled client polled source `A`, a hook
that succeeds with an explicit null gives `GET_DATA_SUCCESS`, yet the key `A`
is absent from the data object, and the envelope is the very one a hook
without a value (`GET_DATA_DELAYED`) leaves behind. -/
theorem C1_null_key_absent :
    (demoSource "A" 0 0 1).enabled = true ∧
    (getDataFromSource (demoEnv (cbValue (some Json.null)) id) sys0 Envelope.init
        (demoSource "A" 0 0 1) "").1 = GET_DATA_SUCCESS ∧
    (getDataFromSource (demoEnv (cbValue (some Json.null)) id) sys0 Envelope.init
        (demoSource "A" 0 0 1) "").2.1.data.get "A" = none ∧
    (getDataFromSource (demoEnv (cbValue none) id) sys0 Envelope.init
        (demoSource "A" 0 0 1) "").1 = GET_DATA_DELAYED ∧
    (getDataFromSource (demoEnv (cbValue (some Json.null)) id) sys0 Envelope.init
        (demoSource "A" 0 0 1) "").2.1.toJson "ext" =
      (getDataFromSource (demoEnv (cbValue none) id) sys0 Envelope.init
        (demoSource "A" 0 0 1) "").2.1.toJson "ext" := by
  refine ⟨rfl, ?_, ?_, ?_, ?_⟩ <;> rfl

/-- C1, amended: for an enabled source whose retrieval is not answered from the
cache, when the hook succeeds with an explicit null (whatever diagnostics it
reports), the retrieval returns `GET_DATA_SUCCESS`, the data object of the
envelope is left as it was (no key is written, so a key that was absent stays
absent), the diagnostics are appended to the error list, and the source, its
cache included, is unchanged. -/
theorem C1_null_success_writes_nothing (E : Env) (s : Sys) (msg : Envelope) (src : DataSource)
    (args : String) (errs : List String)
    (hen : src.enabled = true) (hmiss : cacheFresh E s src = false)
    (hcb : E.get_data s.trace src.uid (argPtr args) = (true, { val := some Json.null, errors := errs })) :
    (getDataFromSource E s msg src args).1 = GET_DATA_SUCCESS ∧
    (getDataFromSource E s msg src args).2.1.data = msg.data ∧
    (getDataFromSource E s msg src args).2.1.data.get src.name = msg.data.get src.name ∧
    (getDataFromSource E s msg src args).2.1.errors = msg.errors ++ errs ∧
    (getDataFromSource E s msg src args).2.2.1 = src := by
  rw [getDataFromSource_polled E s msg src args hen hmiss]
  simp [hcb, Json.is_null, mergeErrors_errors]

/-- C1, amended, at a concrete input: the source `A` and a hook that returns an
explicit null. -/
theorem C1_null_success_writes_nothing_witness :
    (getDataFromSource (demoEnv (cbValue (some Json.null)) id) sys0 Envelope.init
        (demoSource "A" 0 0 1) "").1 = GET_DATA_SUCCESS ∧
    (getDataFromSource (demoEnv (cbValue (some Json.null)) id) sys0 Envelope.init
        (demoSource "A" 0 0 1) "").2.1.data = Envelope.init.data ∧
    (getDataFromSource (demoEnv (cbValue (some Json.null)) id) sys0 Envelope.init
        (demoSource "A" 0 0 1) "").2.1.data.get (demoSource "A" 0 0 1).name =
      Envelope.init.data.get (demoSource "A" 0 0 1).name ∧
    (getDataFromSource (demoEnv (cbValue (some Json.null)) id) sys0 Envelope.init
        (demoSource "A" 0 0 1) "").2.1.errors = Envelope.init.errors ++ [] ∧
    (getDataFromSource (demoEnv (cbValue (some Json.null)) id) sys0 Envelope.init
        (demoSource "A" 0 0 1) "").2.2.1 = demoSource "A" 0 0 1 :=
  C1_null_success_writes_nothing (demoEnv (cbValue (some Json.null)) id) sys0 Envelope.init
    (demoSource "A" 0 0 1) "" [] rfl rfl rfl

/-! ## C2: the TTL cache of a client polled source -/

/-- C3, as stated, fails: with `QUASAR_POLLING_SIGNALED = -1` and
`QUASAR_POLLING_CLIENT = 0`, construct an extension with the one signaled
source `S` and subscribe client `7` to it. The call returns `true`, the state
is reachable, `S` is signaled and has the subscriber `7`, and it has no timer. -/
theorem C3_signaled_subscribed_no_timer :
    Reachable envNone
      ((demoExt envNone [{ name := "S", rate := -1, validtime := 0, uid := 0 }]).AddSubscriber
        envNone 7 "S").2 ∧
    ((demoExt envNone [{ name := "S", rate := -1, validtime := 0, uid := 0 }]).AddSubscriber
        envNone 7 "S").1 = true ∧
    (((demoExt envNone [{ name := "S", rate := -1, validtime := 0, uid := 0 }]).AddSubscriber
        envNone 7 "S").2.datasources.map
      fun kd => (kd.1, kd.2.rate, kd.2.subscribers, kd.2.timer.isSome)) =
      [("S", envNone.QUASAR_POLLING_SIGNALED, [7], false)] :=
  ⟨Reachable.add _ _ _ (demoExt_reachable _ _ _), rfl, rfl⟩

/-- C3, amended: in every state reachable from a constructed extension, a data
source has a timer if and only if its rate exceeds `QUASAR_POLLING_CLIENT`
(fixed interval) and its subscriber set is non-empty. -/
theorem C3_timer_iff_interval_and_subscribed (E : Env) (ext : Extension) (h : Reachable E ext)
    (kd : String × DataSource) (hkd : kd ∈ ext.datasources) :
    kd.2.timer.isSome = true ↔ (kd.2.rate > E.QUASAR_POLLING_CLIENT ∧ kd.2.subscribers ≠ []) :=
  (h.allWF kd hkd).timer

/-- C3, amended, at a concrete input: the fixed interval source `T` (rate 1000)
after client `7` subscribed has a timer. -/
theorem C3_timer_iff_interval_and_subscribed_witness :
    (subscribed envNone 7 (newSource envNone { name := "T", rate := 1000, validtime := 0, uid := 0 }
        1 0)).timer.isSome = true ↔
      ((subscribed envNone 7 (newSource envNone { name := "T", rate := 1000, validtime := 0, uid := 0 }
        1 0)).rate > envNone.QUASAR_POLLING_CLIENT ∧
       (subscribed envNone 7 (newSource envNone { name := "T", rate := 1000, validtime := 0, uid := 0 }
        1 0)).subscribers ≠ []) :=
  C3_timer_iff_interval_and_subscribed envNone
    ((demoExt envNone [{ name := "T", rate := 1000, validtime := 0, uid := 0 }]).AddSubscriber
      envNone 7 "T").2
    (Reachable.add _ _ _ (demoExt_reachable _ _ _))
    ("T", subscribed envNone 7 (newSource envNone { name := "T", rate := 1000, validtime := 0, uid := 0 }
        1 0))
    (List.Mem.head _)

/-! ## C4: rejected subscriptions -/

/-- C4: `AddSubscriber(client, sourceName)` returns `false` exactly when the
client handle is null, or `sourceName` names no source of the extension, or
the named source is client polled; when it returns `false` the extension is
unchanged; and in every reachable state a client polled source has no
subscriber. -/
theorem C4_AddSubscriber_rejects (E : Env) :
    (∀ (ext : Extension) (c : Nat) (n : String),
      (ext.AddSubscriber E c n).1 = false ↔
        (c = 0 ∨ ext.SourceExists n = false ∨
          ∃ d, ext.datasources.find n = some d ∧ d.rate = E.QUASAR_POLLING_CLIENT)) ∧
    (∀ (ext : Extension) (c : Nat) (n : String),
      (ext.AddSubscriber E c n).1 = false → (ext.AddSubscriber E c n).2 = ext) ∧
    (∀ ext : Extension, Reachable E ext →
      ∀ kd ∈ ext.datasources, kd.2.rate = E.QUASAR_POLLING_CLIENT → kd.2.subscribers = []) := by
  refine ⟨?_, ?_, ?_⟩
  · intro ext c n
    rw [Extension.AddSubscriber_eq]
    unfold Extension.SourceExists SourceMap.count
    by_cases hc : c = 0
    · simp [hc]
    · rw [if_neg hc]
      cases hf : ext.datasources.find n with
      | none => simp [hc]
      | some d =>
        by_cases hr : d.rate = E.QUASAR_POLLING_CLIENT
        · simp [hc, hr]
        · simp [hc, hr]
  · intro ext c n
    rw [Extension.AddSubscriber_eq]
    by_cases hc : c = 0
    · simp [hc]
    · rw [if_neg hc]
      cases hf : ext.datasources.find n with
      | none => simp
      | some d =>
        by_cases hr : d.rate = E.QUASAR_POLLING_CLIENT
        · simp [hr]
        · simp [hr]
  · intro ext h kd hkd hr
    exact (h.allWF kd hkd).client hr

/-- C4 at a concrete input: subscribing client `7` to the client polled source
`A` is rejected and leaves the extension as it was; so does subscribing to a
name that is not registered. -/
theorem C4_AddSubscriber_rejects_witness :
    ((demoExt envAB sourcesAB).AddSubscriber envAB 7 "A").1 = false ∧
    ((demoExt envAB sourcesAB).AddSubscriber envAB 7 "A").2 = demoExt envAB sourcesAB ∧
    ((demoExt envAB sourcesAB).AddSubscriber envAB 7 "Unknown").1 = false :=
  ⟨((C4_AddSubscriber_rejects envAB).1 (demoExt envAB sourcesAB) 7 "A").mpr
      (Or.inr (Or.inr ⟨newSource envAB { name := "A", rate := 0, validtime := 0, uid := 0 } 1 0,
        rfl, rfl⟩)),
    (C4_AddSubscriber_rejects envAB).2.1 (demoExt envAB sourcesAB) 7 "A" rfl,
    ((C4_AddSubscriber_rejects envAB).1 (demoExt envAB sourcesAB) 7 "Unknown").mpr
      (Or.inr (Or.inl rfl))⟩

/-! ## C5: the batch poll -/

theorem pollStep_unknown (E : Env) (args : String) (client : Nat)
    (st : Envelope × Extension × Sys) (n : String) (hf : st.2.1.datasources.find n = none) :
    pollStep E args client st n =
      ({ st.1 with errors := st.1.errors ++ [unknownSourceMsg n st.2.1.name] }, st.2.1, st.2.2) := by
  unfold pollStep
  simp only [hf]

/-- One iteration of the batch poll for a registered name, by the outcome of
its retrieval. -/
theorem pollStep_known (E : Env) (args : String) (client : Nat)
    (st : Envelope × Extension × Sys) (n : String) (d : DataSource)
    (hf : st.2.1.datasources.find n = some d) :
    (pollStep E args client st n).1.data = (getDataFromSource E st.2.2 st.1 d args).2.1.data ∧
    (pollStep E args client st n).1.errors =
      (st.1.errors ++ diagnostics E st.2.2 d args) ++
        (if (getDataFromSource E st.2.2 st.1 d args).1 = GET_DATA_FAILED then
          [failedSourceMsg n st.2.1.name] else []) ∧
    (pollStep E args client st n).2.2 = (getDataFromSource E st.2.2 st.1 d args).2.2.2 ∧
    (pollStep E args client st n).2.1 = st.2.1.withSource n
      (if (getDataFromSource E st.2.2 st.1 d args).1 = GET_DATA_DELAYED then
        { (getDataFromSource E st.2.2 st.1 d args).2.2.1 with
          pollqueue := setInsert client (getDataFromSource E st.2.2 st.1 d args).2.2.1.pollqueue }
       else (getDataFromSource E st.2.2 st.1 d args).2.2.1) := by
  have he := getDataFromSource_errors E st.2.2 st.1 d args
  unfold pollStep
  simp only [hf]
  cases hg : (getDataFromSource E st.2.2 st.1 d args).1 <;>
    simp [he, Extension.withSource]

theorem pollStep_name (E : Env) (args : String) (client : Nat)
    (st : Envelope × Extension × Sys) (n : String) :
    (pollStep E args client st n).2.1.name = st.2.1.name := by
  unfold pollStep
  cases hf : st.2.1.datasources.find n with
  | none => rfl
  | some d =>
    simp only []
    split <;> rfl

theorem pollFold_name (E : Env) (args : String) (client : Nat) (ns : List String) :
    ∀ st : Envelope × Extension × Sys,
      (ns.foldl (pollStep E args client) st).2.1.name = st.2.1.name := by
  induction ns with
  | nil => intro st; rfl
  | cons n rest ih =>
    intro st
    rw [List.foldl_cons, ih, pollStep_name]

theorem unknownSourceMsg_contains (n e : String) :
    ∃ a b : String, unknownSourceMsg n e = a ++ n ++ b :=
  ⟨"Unknown data source ", " requested in extension " ++ e, by
    simp [unknownSourceMsg, String.append_assoc]⟩

/-- C5: `PollDataForSending` processes every name of the list, in order, and
never stops early: the result for `pre ++ n :: post` is the loop over `post`
run from the state the iteration for `n` leaves. In the state `st` reached
after the names `pre`, the iteration for a name `n` does the following. A name
that is not registered adds exactly one error entry, which contains the name,
and nothing else changes. For a registered source, the error list gets the
diagnostics its hook reported and, from the loop itself: exactly one entry and
no data key when the retrieval is `GET_DATA_FAILED`; no entry and no data key,
with the client inserted into the pending-poll set of the source, when it is
`GET_DATA_DELAYED`; and a retrieval that obtains a non-null value `v` succeeds
and leaves `v` at the key `n` of the data object. In particular for
`["A", "Unknown", "B"]`, `A` obtaining `v` and `B` delayed, both without
diagnostics, and `Unknown` not registered: the error list is the one entry
for `Unknown`, the client is in the pending-poll set of `B`, and `v` is at
key `A`. -/
theorem C5_poll_batch (E : Env) (ext : Extension) (h : Reachable E ext) (s : Sys)
    (args : String) (client : Nat) :
    (∀ (pre : List String) (n : String) (post : List String),
      ext.PollDataForSending E s (pre ++ n :: post) args client =
        post.foldl (pollStep E args client)
          (pollStep E args client (ext.PollDataForSending E s pre args client) n)) ∧
    (∀ (pre : List String) (n : String) (st : Envelope × Extension × Sys),
      st = ext.PollDataForSending E s pre args client →
      (st.2.1.SourceExists n = false →
        pollStep E args client st n =
          ({ st.1 with errors := st.1.errors ++ [unknownSourceMsg n ext.name] }, st.2.1, st.2.2) ∧
        ∃ a b : String, unknownSourceMsg n ext.name = a ++ n ++ b) ∧
      (∀ d : DataSource, st.2.1.datasources.find n = some d →
        ((getDataFromSource E st.2.2 st.1 d args).1 = GET_DATA_FAILED →
          (pollStep E args client st n).1.errors =
            st.1.errors ++ diagnostics E st.2.2 d args ++ [failedSourceMsg n ext.name] ∧
          (pollStep E args client st n).1.data = st.1.data) ∧
        ((getDataFromSource E st.2.2 st.1 d args).1 = GET_DATA_DELAYED →
          (pollStep E args client st n).1.errors = st.1.errors ++ diagnostics E st.2.2 d args ∧
          (pollStep E args client st n).1.data = st.1.data ∧
          ∃ d1, (pollStep E args client st n).2.1.datasources.find n = some d1 ∧
            client ∈ d1.pollqueue) ∧
        (∀ v : Json, retrievedValue E st.2.2 d args = some v → v.is_null = false →
          (getDataFromSource E st.2.2 st.1 d args).1 = GET_DATA_SUCCESS ∧
          (pollStep E args client st n).1.data.get n = some v ∧
          (pollStep E args client st n).1.errors =
            st.1.errors ++ diagnostics E st.2.2 d args))) ∧
    (∀ (dA dB : DataSource) (v : Json),
      ext.datasources.find "A" = some dA → ext.SourceExists "Unknown" = false →
      ext.datasources.find "B" = some dB →
      retrievedValue E s dA args = some v → v.is_null = false → diagnostics E s dA args = [] →
      (getDataFromSource E (ext.PollDataForSending E s ["A", "Unknown"] args client).2.2
        (ext.PollDataForSending E s ["A", "Unknown"] args client).1 dB args).1 =
          GET_DATA_DELAYED →
      diagnostics E (ext.PollDataForSending E s ["A", "Unknown"] args client).2.2 dB args = [] →
      (ext.PollDataForSending E s ["A", "Unknown", "B"] args client).1.errors =
        [unknownSourceMsg "Unknown" ext.name] ∧
      (∃ d1, (ext.PollDataForSending E s ["A", "Unknown", "B"] args client).2.1.datasources.find
          "B" = some d1 ∧ client ∈ d1.pollqueue) ∧
      (ext.PollDataForSending E s ["A", "Unknown", "B"] args client).1.data.get "A" = some v) := by
  -- the facts about one iteration, in any state whose sources are keyed by their names
  have step : ∀ (n : String) (st : Envelope × Extension × Sys), st.2.1.datasources.AllWF E →
      ∀ d : DataSource, st.2.1.datasources.find n = some d →
        ((getDataFromSource E st.2.2 st.1 d args).1 = GET_DATA_FAILED →
          (pollStep E args client st n).1.errors =
            st.1.errors ++ diagnostics E st.2.2 d args ++ [failedSourceMsg n st.2.1.name] ∧
          (pollStep E args client st n).1.data = st.1.data) ∧
        ((getDataFromSource E st.2.2 st.1 d args).1 = GET_DATA_DELAYED →
          (pollStep E args client st n).1.errors = st.1.errors ++ diagnostics E st.2.2 d args ∧
          (pollStep E args client st n).1.data = st.1.data ∧
          ∃ d1, (pollStep E args client st n).2.1.datasources.find n = some d1 ∧
            client ∈ d1.pollqueue) ∧
        (∀ v : Json, retrievedValue E st.2.2 d args = some v → v.is_null = false →
          (getDataFromSource E st.2.2 st.1 d args).1 = GET_DATA_SUCCESS ∧
          (pollStep E args client st n).1.data.get n = some v ∧
          (pollStep E args client st n).1.errors =
            st.1.errors ++ diagnostics E st.2.2 d args) := by
    intro n st hwf d hf
    obtain ⟨k1, k2, _, k4⟩ := pollStep_known E args client st n d hf
    have hname : d.name = n := (hwf _ (SourceMap.find_mem hf)).named
    refine ⟨?_, ?_, ?_⟩
    · intro hg
      rw [k1, k2, hg, if_pos rfl]
      exact ⟨rfl, getDataFromSource_data_of_ne_success E _ _ d args (by rw [hg]; decide)⟩
    · intro hg
      rw [k1, k2, k4, hg]
      refine ⟨by simp, getDataFromSource_data_of_ne_success E _ _ d args (by rw [hg]; decide), ?_⟩
      exact ⟨_, SourceMap.find_assign _ hf, by simp [mem_setInsert]⟩
    · intro v hv hnull
      obtain ⟨g1, g2⟩ := getDataFromSource_data_of_value E st.2.2 st.1 d args v hv hnull
      rw [k1, k2, g1, g2, hname]
      exact ⟨rfl, JObject.get_set _ _ _, by simp⟩
  refine ⟨?_, ?_, ?_⟩
  · intro pre n post
    simp [Extension.PollDataForSending, List.foldl_append]
  · intro pre n st hst
    have hwf : st.2.1.datasources.AllWF E := by
      rw [hst]; exact (Reachable.poll ext s pre args client h).allWF
    have hn : st.2.1.name = ext.name := by
      rw [hst]; exact pollFold_name E args client pre _
    constructor
    · intro hex
      have hf : st.2.1.datasources.find n = none := by
        simpa [Extension.SourceExists, SourceMap.count] using hex
      rw [pollStep_unknown E args client st n hf, hn]
      exact ⟨rfl, unknownSourceMsg_contains n ext.name⟩
    · intro d hf
      rw [← hn]
      exact step n st hwf d hf
  · intro dA dB v hA hU hB hv hnull hdA hgB hdB
    have hUf : ext.datasources.find "Unknown" = none := by
      simpa [Extension.SourceExists, SourceMap.count] using hU
    have hwf0 : (pollStart ext s).2.1.datasources.AllWF E := h.allWF
    -- the iteration for A
    obtain ⟨_, _, a3⟩ := step "A" (pollStart ext s) hwf0 dA hA
    obtain ⟨_, a5, a6⟩ := a3 v hv hnull
    obtain ⟨_, _, _, a9⟩ := pollStep_known E args client (pollStart ext s) "A" dA hA
    have e1 : (pollStep E args client (pollStart ext s) "A").1.errors = [] := by
      rw [a6]
      show [] ++ diagnostics E s dA args = []
      rw [hdA]; rfl
    -- the iteration for Unknown
    have hU1 : (pollStep E args client (pollStart ext s) "A").2.1.datasources.find "Unknown" =
        none := by
      rw [a9]
      simp only [Extension.withSource]
      rw [SourceMap.find_assign_ne _ _ (by decide)]
      exact hUf
    have u := pollStep_unknown E args client _ "Unknown" hU1
    have two : ext.PollDataForSending E s ["A", "Unknown"] args client =
        pollStep E args client (pollStep E args client (pollStart ext s) "A") "Unknown" := rfl
    have three : ext.PollDataForSending E s ["A", "Unknown", "B"] args client =
        pollStep E args client (ext.PollDataForSending E s ["A", "Unknown"] args client) "B" := rfl
    have hwf2 : (ext.PollDataForSending E s ["A", "Unknown"] args client).2.1.datasources.AllWF E :=
      (Reachable.poll ext s ["A", "Unknown"] args client h).allWF
    have hB2 : (ext.PollDataForSending E s ["A", "Unknown"] args client).2.1.datasources.find "B" =
        some dB := by
      rw [two, u, a9]
      simp only [Extension.withSource]
      rw [SourceMap.find_assign_ne _ _ (by decide)]
      exact hB
    -- the iteration for B
    obtain ⟨_, b2, _⟩ := step "B" _ hwf2 dB hB2
    obtain ⟨b3, b4, b5⟩ := b2 hgB
    rw [three]
    refine ⟨?_, b5, ?_⟩
    · rw [b3, hdB, two, u]
      simp only [List.append_nil]
      rw [e1, pollStep_name]
      rfl
    · rw [b4, two, u]
      exact a5

/-- C5 at a concrete input: client `9` polls `["A", "Unknown", "B"]` on an
extension with the client polled sources `A` (the hook has the value `42`) and
`B` (the hook has no value yet). -/
theorem C5_poll_batch_witness :
    ((demoExt envAB sourcesAB).PollDataForSending envAB sys0 ["A", "Unknown", "B"] "" 9).1.errors =
      ["Unknown data source Unknown requested in extension ext"] ∧
    (((demoExt envAB sourcesAB).PollDataForSending envAB sys0 ["A", "Unknown", "B"] "" 9).1.errors =
        [unknownSourceMsg "Unknown" (demoExt envAB sourcesAB).name] ∧
      (∃ d1, ((demoExt envAB sourcesAB).PollDataForSending envAB sys0 ["A", "Unknown", "B"] ""
          9).2.1.datasources.find "B" = some d1 ∧ 9 ∈ d1.pollqueue) ∧
      ((demoExt envAB sourcesAB).PollDataForSending envAB sys0 ["A", "Unknown", "B"] ""
          9).1.data.get "A" = some (Json.num 42)) :=
  ⟨rfl, (C5_poll_batch envAB (demoExt envAB sourcesAB) (demoExt_reachable _ _ _) sys0 "" 9).2.2
    (newSource envAB { name := "A", rate := 0, validtime := 0, uid := 0 } 1 0)
    (newSource envAB { name := "B", rate := 0, validtime := 0, uid := 0 } 2 1)
    (Json.num 42) rfl rfl rfl rfl rfl rfl rfl rfl⟩

/-! ## C6: a push to a source without subscribers -/

/-- A push to a source without subscribers: nothing happens but the
resolution of the rendezvous, when the source has one. -/
theorem sendDataToSubscribers_no_subscribers (E : Env) (extName : String) (s : Sys)
    (src : DataSource) (hs : src.subscribers = []) :
    sendDataToSubscribers E extName s src =
      match src.locks with
      | some _ => ({ src with locks := some { processed := true } },
                   s.log (Event.notify_one src.name))
      | none => (src, s) := by
  unfold sendDataToSubscribers
  simp [hs]

/-- A push, through the extension, to a source without subscribers. -/
theorem Extension.send_no_subscribers (E : Env) (ext : Extension) (s : Sys) (n : String)
    (d : DataSource) (hf : ext.datasources.find n = some d) (hs : d.subscribers = []) :
    ext.sendDataToSubscribers E s n =
      if d.locks.isSome then (ext.withSource n d.resolved, s.log (Event.notify_one d.name))
      else (ext, s) := by
  unfold Extension.sendDataToSubscribers
  simp only [hf]
  rw [sendDataToSubscribers_no_subscribers E ext.name s d hs]
  cases hl : d.locks with
  | none => simp [SourceMap.assign_self hf]
  | some l => simp [Extension.withSource, DataSource.resolved]

/-- C6: let a source of a reachable extension have no subscriber, and let
`sendDataToSubscribers` be called on it `k` times in a row. Then the process
state changes only by one `notify_one` per call when the source is signaled,
so the trace gains no call of the `get_data` hook and no `PublishData`; and
the extension is unchanged, except that, when the source is signaled and
`k > 0`, the `processed` flag of its rendezvous is `true` (cache, subscriber
set, pending-poll set and timer of the source stay as they were). -/
theorem C6_send_without_subscribers (E : Env) (ext : Extension) (h : Reachable E ext)
    (n : String) (d : DataSource) (hf : ext.datasources.find n = some d)
    (hs : d.subscribers = []) (k : Nat) (s : Sys) :
    (sendRepeat E n k (ext, s)).2 =
      s.notified (if d.rate = E.QUASAR_POLLING_SIGNALED then k else 0) d.name ∧
    ((sendRepeat E n k (ext, s)).2.trace.filter Event.isGetData =
      s.trace.filter Event.isGetData) ∧
    ((sendRepeat E n k (ext, s)).2.trace.filter Event.isPublish =
      s.trace.filter Event.isPublish) ∧
    (sendRepeat E n k (ext, s)).1 =
      (if d.rate = E.QUASAR_POLLING_SIGNALED ∧ 0 < k then ext.withSource n d.resolved
       else ext) := by
  have hwf := h.allWF _ (SourceMap.find_mem hf)
  have key : (sendRepeat E n k (ext, s)).2 =
        s.notified (if d.rate = E.QUASAR_POLLING_SIGNALED then k else 0) d.name ∧
      (sendRepeat E n k (ext, s)).1 =
        (if d.rate = E.QUASAR_POLLING_SIGNALED ∧ 0 < k then ext.withSource n d.resolved
         else ext) := by
    by_cases hsig : d.rate = E.QUASAR_POLLING_SIGNALED
    · -- a signaled source: it has a rendezvous
      have hl : d.locks.isSome = true := hwf.locks.mpr hsig
      simp only [hsig, if_true, true_and]
      -- after the first call the state is stable
      have stable : ∀ (j : Nat) (t : Sys),
          sendRepeat E n j (ext.withSource n d.resolved, t) =
            (ext.withSource n d.resolved, t.notified j d.name) := by
        intro j
        induction j with
        | zero => intro t; simp [sendRepeat, Sys.notified]
        | succ j ih =>
          intro t
          unfold sendRepeat
          have hf1 : (ext.withSource n d.resolved).datasources.find n = some d.resolved :=
            SourceMap.find_assign _ hf
          rw [Extension.send_no_subscribers E _ t n d.resolved hf1 hs]
          have e1 : (ext.withSource n d.resolved).withSource n d.resolved.resolved =
              ext.withSource n d.resolved := by
            simp [Extension.withSource, DataSource.resolved, SourceMap.assign_assign]
          have e2 : d.resolved.locks.isSome = true := rfl
          rw [e1, e2, if_pos rfl, ih]
          simp [Sys.log, Sys.notified, List.replicate_succ, DataSource.resolved]
      cases k with
      | zero => simp [sendRepeat, Sys.notified]
      | succ j =>
        unfold sendRepeat
        rw [Extension.send_no_subscribers E ext s n d hf hs, hl, if_pos rfl, stable]
        simp [Sys.log, Sys.notified, List.replicate_succ]
    · -- any other source: it has no rendezvous
      have hl : d.locks.isSome = false := by
        cases hd : d.locks.isSome with
        | false => rfl
        | true => exact absurd (hwf.locks.mp hd) hsig
      simp only [hsig, if_false, false_and]
      have stable : ∀ (j : Nat), sendRepeat E n j (ext, s) = (ext, s) := by
        intro j
        induction j with
        | zero => rfl
        | succ j ih =>
          unfold sendRepeat
          rw [Extension.send_no_subscribers E ext s n d hf hs, hl]
          exact ih
      rw [stable]
      simp [Sys.notified]
  refine ⟨key.1, ?_, ?_, key.2⟩
  · rw [key.1]
    simp [Sys.notified, List.filter_append, List.filter_replicate, Event.isGetData]
  · rw [key.1]
    simp [Sys.notified, List.filter_append, List.filter_replicate, Event.isPublish]

/-- C6 at a concrete input: three pushes in a row to the signaled source `S`
of a freshly constructed extension, which has no subscriber. -/
theorem C6_send_without_subscribers_witness :
    (sendRepeat envNone "S" 3
        (demoExt envNone [{ name := "S", rate := -1, validtime := 0, uid := 0 }], sys0)).2 =
      sys0.notified (if (-1 : Int) = envNone.QUASAR_POLLING_SIGNALED then 3 else 0) "S" ∧
    ((sendRepeat envNone "S" 3
        (demoExt envNone [{ name := "S", rate := -1, validtime := 0, uid := 0 }], sys0)).2.trace.filter
      Event.isGetData = sys0.trace.filter Event.isGetData) ∧
    ((sendRepeat envNone "S" 3
        (demoExt envNone [{ name := "S", rate := -1, validtime := 0, uid := 0 }], sys0)).2.trace.filter
      Event.isPublish = sys0.trace.filter Event.isPublish) ∧
    (sendRepeat envNone "S" 3
        (demoExt envNone [{ name := "S", rate := -1, validtime := 0, uid := 0 }], sys0)).1 =
      (if (-1 : Int) = envNone.QUASAR_POLLING_SIGNALED ∧ 0 < 3 then
        (demoExt envNone [{ name := "S", rate := -1, validtime := 0, uid := 0 }]).withSource "S"
          (newSource envNone { name := "S", rate := -1, validtime := 0, uid := 0 } 1 0).resolved
       else demoExt envNone [{ name := "S", rate := -1, validtime := 0, uid := 0 }]) :=
  C6_send_without_subscribers envNone
    (demoExt envNone [{ name := "S", rate := -1, validtime := 0, uid := 0 }])
    (demoExt_reachable _ _ _) "S"
    (newSource envNone { name := "S", rate := -1, validtime := 0, uid := 0 } 1 0) rfl rfl 3 sys0

/-! ## C7: uids -/

/-- What the registration loop does to the map and to the counter: entries are
added at the end, for names that were not registered; without wrap-around
their uids are consecutive from the counter on, and the counter advances by
their number; each entry carries the uid written back into the first
descriptor with its name. -/
theorem registerSources_spec (E : Env) (ds : List quasar_data_source_t) :
    ∀ (m : SourceMap) (s : Sys), ∃ added : SourceMap,
      (registerSources E ds m s).2.1 = m ++ added ∧
      (∀ kd ∈ added, m.count kd.1 = false) ∧
      (s.uid + added.length < 2 ^ 64 →
        (added.map fun kd => kd.2.uid) = List.range' (s.uid + 1) added.length ∧
        (registerSources E ds m s).2.2.uid = s.uid + added.length) ∧
      (∀ kd ∈ added,
        ((registerSources E ds m s).1.find? fun x => x.name = kd.1).map (fun x => x.uid) =
          some kd.2.uid) := by
  induction ds with
  | nil =>
    intro m s
    exact ⟨[], by simp [registerSources], by simp, by simp [registerSources], by simp⟩
  | cons d rest ih =>
    intro m s
    by_cases hc : m.count d.name = true
    · obtain ⟨added, h1, h2, h3, h4⟩ := ih m s
      refine ⟨added, ?_, h2, ?_, ?_⟩
      · simp only [registerSources, hc, if_true]; exact h1
      · simp only [registerSources, hc, if_true]; exact h3
      · intro kd hkd
        simp only [registerSources, hc, if_true]
        have hne : d.name ≠ kd.1 := by
          intro e
          have := h2 kd hkd
          rw [← e, hc] at this
          exact Bool.noConfusion this
        simp only [List.find?_cons, hne, decide_False]
        exact h4 kd hkd
    · have hstep : registerSources E (d :: rest) m s =
          ({ d with uid := (s.uid + 1) % 2 ^ 64 } ::
            (registerSources E rest
              (m ++ [(d.name, newSource E d ((s.uid + 1) % 2 ^ 64) (E.now s.ticks))])
              (if d.rate == E.QUASAR_POLLING_CLIENT then
                Sys.tick { s with uid := (s.uid + 1) % 2 ^ 64 }
               else { s with uid := (s.uid + 1) % 2 ^ 64 })).1,
            (registerSources E rest
              (m ++ [(d.name, newSource E d ((s.uid + 1) % 2 ^ 64) (E.now s.ticks))])
              (if d.rate == E.QUASAR_POLLING_CLIENT then
                Sys.tick { s with uid := (s.uid + 1) % 2 ^ 64 }
               else { s with uid := (s.uid + 1) % 2 ^ 64 })).2) := by
        simp [registerSources, hc]
      rw [hstep]
      generalize hu : (s.uid + 1) % 2 ^ 64 = u
      obtain ⟨added, h1, h2, h3, h4⟩ := ih
        (m ++ [(d.name, newSource E d u (E.now s.ticks))])
        (if d.rate == E.QUASAR_POLLING_CLIENT then Sys.tick { s with uid := u }
         else { s with uid := u })
      have huid : (if d.rate == E.QUASAR_POLLING_CLIENT then Sys.tick { s with uid := u }
         else { s with uid := u }).uid = u := by
        split <;> rfl
      have hfresh : ∀ kd ∈ added, m.count kd.1 = false ∧ d.name ≠ kd.1 := by
        intro kd hkd
        have := h2 kd hkd
        unfold SourceMap.count at this ⊢
        rw [SourceMap.find_append] at this
        cases hm : m.find kd.1 with
        | some e => simp [hm] at this
        | none =>
          refine ⟨by simp, ?_⟩
          intro e
          simp [hm, e] at this
      refine ⟨(d.name, newSource E d u (E.now s.ticks)) :: added, ?_, ?_, ?_, ?_⟩
      · simpa using h1
      · intro kd hkd
        rcases List.mem_cons.mp hkd with h0 | h0
        · rw [h0]; simpa using hc
        · exact (hfresh kd h0).1
      · intro hlt
        simp only [List.length_cons] at hlt
        have hmod : u = s.uid + 1 := by
          rw [← hu]; exact Nat.mod_eq_of_lt (by omega)
        rw [huid] at h3
        subst hmod
        obtain ⟨h3a, h3b⟩ := h3 (by omega)
        constructor
        · simp only [List.map_cons, List.length_cons, List.range'_succ, h3a]
          rfl
        · simp only [List.length_cons]
          rw [show s.uid + (added.length + 1) = s.uid + 1 + added.length by omega]
          exact h3b
      · intro kd hkd
        rcases List.mem_cons.mp hkd with h0 | h0
        · rw [h0]
          simp [newSource]
        · have hne := (hfresh kd h0).2
          simp only [List.find?_cons, hne, decide_False]
          exact h4 kd h0

/-- What a successful construction does to the counter, and the uids it
hands out. -/
theorem Extension.ctor_spec {E : Env} {p : Option quasar_ext_info_t} {path : String}
    {s s1 : Sys} {ext : Extension} (h : Extension.ctor E p path s = .ok (ext, s1)) :
    (s.uid + ext.datasources.length < 2 ^ 64 →
      (ext.datasources.map fun kd => kd.2.uid) = List.range' (s.uid + 1) ext.datasources.length ∧
      s1.uid = s.uid + ext.datasources.length) ∧
    (∀ kd ∈ ext.datasources, writtenUid ext.extensionInfo kd.1 = some kd.2.uid) := by
  unfold Extension.ctor at h
  split at h
  · simp at h
  · rename_i info
    split at h
    · simp at h
    · split at h
      · simp at h
      · split at h
        · simp at h
        · simp only [Except.ok.injEq, Prod.mk.injEq] at h
          obtain ⟨h1, h2⟩ := h
          cases hds : info.dataSources with
          | none =>
            simp only [hds] at h1 h2
            rw [← h1, ← h2]
            simp
          | some ds =>
            simp only [hds] at h1 h2
            obtain ⟨added, a1, _, a3, a4⟩ := registerSources_spec E ds [] s
            rw [List.nil_append] at a1
            rw [← h1, ← h2]
            simp only [a1, writtenUid]
            exact ⟨a3, a4⟩

/-- The uids of a run of constructions, from any counter value on. -/
theorem constructAll_spec (E : Env) (ps : List (Option quasar_ext_info_t × String)) :
    ∀ s : Sys, s.uid + (registeredUids (constructAll E ps s).1).length < 2 ^ 64 →
      registeredUids (constructAll E ps s).1 =
        List.range' (s.uid + 1) (registeredUids (constructAll E ps s).1).length ∧
      (constructAll E ps s).2.uid = s.uid + (registeredUids (constructAll E ps s).1).length := by
  induction ps with
  | nil => intro s _; simp [constructAll, registeredUids]
  | cons p rest ih =>
    intro s hlt
    unfold constructAll at hlt ⊢
    cases hc : Extension.ctor E p.1 p.2 s with
    | error e =>
      simp only [hc] at hlt ⊢
      exact ih s hlt
    | ok r =>
      simp only [hc] at hlt ⊢
      obtain ⟨ext, s1⟩ := r
      simp only [registeredUids, List.map_cons, List.flatten_cons, List.length_append,
        List.length_map] at hlt ⊢
      have hrest : (registeredUids (constructAll E rest s1).1).length =
          ((constructAll E rest s1).1.map fun e => e.datasources.map fun kd => kd.2.uid).flatten.length :=
        rfl
      obtain ⟨c1, c2⟩ := (Extension.ctor_spec hc).1 (by omega)
      obtain ⟨i1, i2⟩ := ih s1 (by rw [c2, hrest]; omega)
      simp only [registeredUids] at i1 i2
      constructor
      · rw [c1]
        conv_lhs => rw [i1, c2]
        rw [show s.uid + ext.datasources.length + 1 = s.uid + 1 + ext.datasources.length by omega,
          List.range'_append_1]
        congr 1
        omega
      · rw [i2, c2]; omega

theorem constructAll_mem (E : Env) (ps : List (Option quasar_ext_info_t × String)) :
    ∀ (s : Sys) (ext : Extension), ext ∈ (constructAll E ps s).1 →
      ∃ p path s0 s1, Extension.ctor E p path s0 = .ok (ext, s1) := by
  induction ps with
  | nil => intro s ext h; simp [constructAll] at h
  | cons p rest ih =>
    intro s ext h
    unfold constructAll at h
    cases hc : Extension.ctor E p.1 p.2 s with
    | error e =>
      simp only [hc] at h
      exact ih s ext h
    | ok r =>
      simp only [hc, List.mem_cons] at h
      rcases h with h | h
      · exact ⟨p.1, p.2, s, r.2, by rw [hc, h]⟩
      · exact ih r.2 ext h

/-- C7: for every run of constructions in a process whose counter starts at
zero, with fewer than `2^64` registrations in total, the uids of the
registered data sources, in registration order and across all extensions,
are `1, 2, ..., n`: the first is `1`, they are strictly increasing and
pairwise distinct. The counter ends at the number of registered sources, so a
rejected duplicate consumes no uid; and the uid of each registered source is
the uid written back into its descriptor. -/
theorem C7_uids_consecutive (E : Env) (ps : List (Option quasar_ext_info_t × String)) (s : Sys)
    (h0 : s.uid = 0) (hlt : (registeredUids (constructAll E ps s).1).length < 2 ^ 64) :
    registeredUids (constructAll E ps s).1 =
      List.range' 1 (registeredUids (constructAll E ps s).1).length ∧
    (registeredUids (constructAll E ps s).1).Pairwise (fun a b => a < b) ∧
    (registeredUids (constructAll E ps s).1).Nodup ∧
    (constructAll E ps s).2.uid = (registeredUids (constructAll E ps s).1).length ∧
    (∀ ext ∈ (constructAll E ps s).1, ∀ kd ∈ ext.datasources,
      writtenUid ext.extensionInfo kd.1 = some kd.2.uid) := by
  obtain ⟨a, b⟩ := constructAll_spec E ps s (by rw [h0]; omega)
  rw [h0] at a b
  simp only [Nat.zero_add] at a b
  refine ⟨a, ?_, ?_, b, ?_⟩
  · rw [a]; exact List.pairwise_lt_range' 1 _
  · rw [a]; exact List.nodup_range' 1 _
  · intro ext hext kd hkd
    obtain ⟨p, path, s0, s1, hc⟩ := constructAll_mem E ps s ext hext
    exact (Extension.ctor_spec hc).2 kd hkd

/-- C7 at a concrete input: the run `demoRun` registers `A`, `B` and `C` with
the uids `1`, `2` and `3`; the second descriptor named `A` gets none. -/
theorem C7_uids_consecutive_witness :
    registeredUids (constructAll envNone demoRun sys0).1 = [1, 2, 3] ∧
    (registeredUids (constructAll envNone demoRun sys0).1 =
      List.range' 1 (registeredUids (constructAll envNone demoRun sys0).1).length ∧
    (registeredUids (constructAll envNone demoRun sys0).1).Pairwise (fun a b => a < b) ∧
    (registeredUids (constructAll envNone demoRun sys0).1).Nodup ∧
    (constructAll envNone demoRun sys0).2.uid =
      (registeredUids (constructAll envNone demoRun sys0).1).length ∧
    (∀ ext ∈ (constructAll envNone demoRun sys0).1, ∀ kd ∈ ext.datasources,
      writtenUid ext.extensionInfo kd.1 = some kd.2.uid)) :=
  ⟨rfl, C7_uids_consecutive envNone demoRun sys0 rfl (by decide)⟩

/-! ## C8: the order of destruction -/

/-- C8, as stated, fails: destroying the extension with the one signaled source
`S` runs the shutdown hook first; the resets of the timer and of the
rendezvous of `S` come after it, not before. -/
theorem C8_shutdown_runs_first :
    (demoExt envNone oneSignaled).dtor =
      [DtorStep.shutdown, DtorStep.timer_reset "S", DtorStep.locks_reset "S",
       DtorStep.subscribers_clear "S", DtorStep.destroyFunc] ∧
    (demoExt envNone oneSignaled).dtor.indexOf DtorStep.shutdown = 0 ∧
    (demoExt envNone oneSignaled).dtor.indexOf (DtorStep.timer_reset "S") = 1 ∧
    (demoExt envNone oneSignaled).dtor.indexOf (DtorStep.locks_reset "S") = 2 := by
  decide

/-- C8, amended: when an extension with a shutdown hook is destroyed, the hook
is the first action and is invoked once; the reset of the timer and the reset
of the rendezvous of every data source come after it, and the resource-destroy
hook is the last action. -/
theorem C8_teardown_after_shutdown (ext : Extension) (h : ext.extensionInfo.shutdown = true) :
    ∃ tail : List DtorStep,
      ext.dtor = DtorStep.shutdown :: tail ∧
      DtorStep.shutdown ∉ tail ∧
      (∀ kd ∈ ext.datasources,
        DtorStep.timer_reset kd.1 ∈ tail ∧ DtorStep.locks_reset kd.1 ∈ tail) ∧
      tail.getLast? = some DtorStep.destroyFunc := by
  refine ⟨(ext.datasources.map fun kd =>
      [DtorStep.timer_reset kd.1, DtorStep.locks_reset kd.1,
        DtorStep.subscribers_clear kd.1]).flatten ++ [DtorStep.destroyFunc], ?_, ?_, ?_, ?_⟩
  · simp [Extension.dtor, h]
  · simp
  · intro kd hkd
    constructor
    · apply List.mem_append_left
      simp only [List.mem_flatten, List.mem_map]
      exact ⟨_, ⟨kd, hkd, rfl⟩, by simp⟩
    · apply List.mem_append_left
      simp only [List.mem_flatten, List.mem_map]
      exact ⟨_, ⟨kd, hkd, rfl⟩, by simp⟩
  · simp

/-- C8, amended, at a concrete input: the extension with the signaled source
`S`. -/
theorem C8_teardown_after_shutdown_witness :
    ∃ tail : List DtorStep,
      (demoExt envNone oneSignaled).dtor = DtorStep.shutdown :: tail ∧
      DtorStep.shutdown ∉ tail ∧
      (∀ kd ∈ (demoExt envNone oneSignaled).datasources,
        DtorStep.timer_reset kd.1 ∈ tail ∧ DtorStep.locks_reset kd.1 ∈ tail) ∧
      tail.getLast? = some DtorStep.destroyFunc :=
  C8_teardown_after_shutdown (demoExt envNone oneSignaled) rfl

/-! ## C9: initialisation -/

/-- C9, as stated, fails: with an init hook that fails, two calls of
`Initialize` on a constructed extension both end in an error and invoke the
hook twice. -/
theorem C9_failed_init_is_retried :
    ((demoExt envInitFails oneSignaled).Initialize envInitFails sys0).1 =
      .error "extension init() failed" ∧
    (((demoExt envInitFails oneSignaled).Initialize envInitFails sys0).2.1.Initialize envInitFails
      ((demoExt envInitFails oneSignaled).Initialize envInitFails sys0).2.2).1 =
      .error "extension init() failed" ∧
    (initRepeat envInitFails 2 (demoExt envInitFails oneSignaled, sys0)).2.trace =
      [Event.init, Event.init] := by
  refine ⟨rfl, rfl, rfl⟩

theorem initRepeat_initialized (E : Env) (k : Nat) (ext : Extension) (s : Sys)
    (h : ext.initialized = true) : initRepeat E k (ext, s) = (ext, s) := by
  induction k with
  | zero => rfl
  | succ k ih =>
    unfold initRepeat
    simp only [Extension.Initialize, h]
    exact ih

/-- C9, amended: a call of `Initialize` on an initialised extension changes
nothing and does not invoke the init hook; a call on an extension that is not
initialised invokes the hook exactly once, and either the hook succeeds and
the extension becomes initialised, or the call ends in an error and the
extension stays as it was (so a later call invokes the hook again). Over `k`
calls in a row on an extension that is not initialised the hook is therefore
invoked once per call up to and including the first call on which it succeeds
and never after: exactly once when its first invocation succeeds, `k` times
when it fails every time. -/
theorem C9_init_hook_calls (E : Env) (ext : Extension) (s : Sys) :
    (ext.initialized = true → ext.Initialize E s = (.ok (), ext, s)) ∧
    (ext.initialized = false → E.init s.trace = true →
      ext.Initialize E s = (.ok (), ext.asInitialized, s.inits 1)) ∧
    (ext.initialized = false → E.init s.trace = false →
      ext.Initialize E s = (.error "extension init() failed", ext, s.inits 1)) ∧
    (∀ k j : Nat, ext.initialized = false → j < k →
      (∀ i < j, E.init (s.inits i).trace = false) → E.init (s.inits j).trace = true →
      initRepeat E k (ext, s) = (ext.asInitialized, s.inits (j + 1))) ∧
    (∀ k : Nat, ext.initialized = false → (∀ i < k, E.init (s.inits i).trace = false) →
      initRepeat E k (ext, s) = (ext, s.inits k)) := by
  have one_ok : ∀ t : Sys, ext.initialized = false → E.init t.trace = true →
      ext.Initialize E t = (.ok (), ext.asInitialized, t.inits 1) := by
    intro t h1 h2
    simp [Extension.Initialize, h1, h2, Extension.asInitialized, Sys.inits, Sys.log]
  have one_err : ∀ t : Sys, ext.initialized = false → E.init t.trace = false →
      ext.Initialize E t = (.error "extension init() failed", ext, t.inits 1) := by
    intro t h1 h2
    simp [Extension.Initialize, h1, h2, Sys.inits, Sys.log]
  have inits_add : ∀ (t : Sys) (a b : Nat), (t.inits a).inits b = t.inits (a + b) := by
    intro t a b
    simp [Sys.inits]
  have inits_zero : ∀ t : Sys, t.inits 0 = t := by
    intro t; simp [Sys.inits]
  refine ⟨?_, one_ok s, one_err s, ?_, ?_⟩
  · intro h
    simp [Extension.Initialize, h]
  · intro k
    induction k generalizing s with
    | zero => intro j _ hj; omega
    | succ k ih =>
      intro j hinit hj hfail hok
      unfold initRepeat
      cases j with
      | zero =>
        rw [inits_zero] at hok
        simp only [one_ok s hinit hok]
        exact initRepeat_initialized E k _ _ rfl
      | succ j =>
        have h0 : E.init s.trace = false := by
          have := hfail 0 (by omega)
          rwa [inits_zero] at this
        simp only [one_err s hinit h0]
        rw [ih (s.inits 1) j hinit (by omega)
          (fun i hi => by rw [inits_add]; rw [Nat.add_comm]; exact hfail (i + 1) (by omega))
          (by rw [inits_add, Nat.add_comm]; exact hok)]
        rw [inits_add]
        congr 2
        omega
  · intro k
    induction k generalizing s with
    | zero => intro _ _; simp [initRepeat, inits_zero]
    | succ k ih =>
      intro hinit hfail
      unfold initRepeat
      have h0 : E.init s.trace = false := by
        have := hfail 0 (by omega)
        rwa [inits_zero] at this
      simp only [one_err s hinit h0]
      rw [ih (s.inits 1) hinit
        (fun i hi => by rw [inits_add]; rw [Nat.add_comm]; exact hfail (i + 1) (by omega))]
      rw [inits_add, Nat.add_comm]

/-- C9, amended, at a concrete input: with an init hook that succeeds, three
calls of `Initialize` in a row invoke the hook once. -/
theorem C9_init_hook_calls_witness :
    initRepeat envNone 3 (demoExt envNone oneSignaled, sys0) =
      ((demoExt envNone oneSignaled).asInitialized, sys0.inits (0 + 1)) :=
  (C9_init_hook_calls envNone (demoExt envNone oneSignaled) sys0).2.2.2.1 3 0 rfl (by decide)
    (fun i hi => absurd hi (Nat.not_lt_zero i)) rfl

/-! ## C10: removing a subscriber -/

theorem unsubscribe_Unsubscribed (c : Nat) (kd : String × DataSource) :
    Unsubscribed c kd (kd.1, unsubscribe c kd.2) := by
  unfold Unsubscribed unsubscribe
  by_cases he : (setErase c kd.2.subscribers).isEmpty = true
  · rw [if_pos he]
    have he1 : setErase c kd.2.subscribers = [] := List.isEmpty_iff.mp he
    exact ⟨rfl, fun x => mem_setErase, fun _ => rfl, fun h => absurd he1 h,
      rfl, rfl, rfl, rfl, rfl, rfl, rfl, rfl⟩
  · rw [if_neg he]
    exact ⟨rfl, fun x => mem_setErase, fun h => absurd (List.isEmpty_iff.mpr h) he, fun _ => rfl,
      rfl, rfl, rfl, rfl, rfl, rfl, rfl, rfl⟩

/-- C10: for every extension and every non-null client `c`, after
`RemoveSubscriber(c)` the map has the same sources in the same order, and for
each of them: the subscriber set is the previous one with `c` removed (the
other clients stay); a source whose set is now empty has no timer; a source
whose set is not empty keeps the timer it had; cache, pending-poll set,
enabled flag, uid and rendezvous are unchanged. Nothing else of the extension
changes. With a null client the call changes nothing. -/
theorem C10_RemoveSubscriber_frame (ext : Extension) (c : Nat) (hc : c ≠ 0) :
    List.Forall₂ (Unsubscribed c) ext.datasources (ext.RemoveSubscriber c).datasources ∧
    ext.RemoveSubscriber c = { ext with datasources := (ext.RemoveSubscriber c).datasources } ∧
    ext.RemoveSubscriber 0 = ext := by
  refine ⟨?_, ?_, ?_⟩
  · unfold Extension.RemoveSubscriber
    rw [if_neg hc]
    simp only []
    generalize ext.datasources = m
    induction m with
    | nil => exact List.Forall₂.nil
    | cons kd rest ih => exact List.Forall₂.cons (unsubscribe_Unsubscribed c kd) ih
  · unfold Extension.RemoveSubscriber
    rw [if_neg hc]
  · simp [Extension.RemoveSubscriber]

/-- C10 at a concrete input: client `7` is removed from an extension in which
it is subscribed to `T` (next to client `8`) and to `U` (alone). `T` keeps
client `8` and its timer, `U` ends without subscriber and without timer, the
client polled source `P` keeps its cache and its pending poll. -/
theorem C10_RemoveSubscriber_frame_witness :
    ((extSubscribed.RemoveSubscriber 7).datasources.map
      fun kd => (kd.1, kd.2.subscribers, kd.2.timer.isSome, kd.2.pollqueue, kd.2.cache.expiry)) =
      [("T", [8], true, [], 0), ("U", [], false, [], 0), ("P", [], false, [9], 900)] ∧
    (List.Forall₂ (Unsubscribed 7) extSubscribed.datasources
        (extSubscribed.RemoveSubscriber 7).datasources ∧
      extSubscribed.RemoveSubscriber 7 =
        { extSubscribed with datasources := (extSubscribed.RemoveSubscriber 7).datasources } ∧
      extSubscribed.RemoveSubscriber 0 = extSubscribed) :=
  ⟨rfl, C10_RemoveSubscriber_frame extSubscribed 7 (by decide)⟩

/-! ## C11: the outcome of a retrieval -/

/-- C11: for a retrieval that is not answered from a fresh cache, with `r` the
answer of the `get_data` hook: the outcome is `GET_DATA_FAILED` if and only if
the source is disabled, or the hook reports failure, or the hook succeeds
without a value and the source is of any type other than client polled (the
push-based ones: signaled and fixed interval); it is `GET_DATA_DELAYED` if and
only if the source is enabled, the hook succeeds without a value and the
source is client polled; it is `GET_DATA_SUCCESS` if and only if the source is
enabled and the hook succeeds with a value, null or not. For a disabled source
the hook is not called; for an enabled one it is called exactly once. -/
theorem C11_outcome_of_retrieval (E : Env) (s : Sys) (msg : Envelope) (src : DataSource)
    (args : String) (h : (src.enabled && cacheFresh E s src) = false) :
    ((getDataFromSource E s msg src args).1 = GET_DATA_FAILED ↔
      (src.enabled = false ∨ (E.get_data s.trace src.uid (argPtr args)).1 = false ∨
        ((E.get_data s.trace src.uid (argPtr args)).1 = true ∧
          (E.get_data s.trace src.uid (argPtr args)).2.val = none ∧
          src.rate ≠ E.QUASAR_POLLING_CLIENT))) ∧
    ((getDataFromSource E s msg src args).1 = GET_DATA_DELAYED ↔
      (src.enabled = true ∧ (E.get_data s.trace src.uid (argPtr args)).1 = true ∧
        (E.get_data s.trace src.uid (argPtr args)).2.val = none ∧
        src.rate = E.QUASAR_POLLING_CLIENT)) ∧
    ((getDataFromSource E s msg src args).1 = GET_DATA_SUCCESS ↔
      (src.enabled = true ∧ (E.get_data s.trace src.uid (argPtr args)).1 = true ∧
        ∃ v, (E.get_data s.trace src.uid (argPtr args)).2.val = some v)) ∧
    (src.enabled = false → (getDataFromSource E s msg src args).2.2.2.trace = s.trace) ∧
    (src.enabled = true → (getDataFromSource E s msg src args).2.2.2.trace =
      s.trace ++ [Event.get_data src.uid (argPtr args)]) := by
  cases hen : src.enabled
  · rw [getDataFromSource_disabled E s msg src args hen]
    simp
  · have hmiss : cacheFresh E s src = false := by simpa [hen] using h
    rw [getDataFromSource_polled E s msg src args hen hmiss]
    simp only []
    cases hok : (E.get_data s.trace src.uid (argPtr args)).1
    · simp [Sys.ite_tick_trace]
    · cases hval : (E.get_data s.trace src.uid (argPtr args)).2.val with
      | none =>
        by_cases hr : src.rate = E.QUASAR_POLLING_CLIENT
        · simp [hr, Sys.ite_tick_trace]
        · simp [hr, Sys.ite_tick_trace]
      | some v =>
        by_cases hn : v.is_null = true
        · simp [hn, Sys.ite_tick_trace]
        · by_cases hc : src.cached E = true
          · simp [hn, hc]
          · simp [hn, hc]

/-- C11 at a concrete input: the fixed interval source `T`, whose hook succeeds
without a value, fails; the client polled source `A` in the same situation is
delayed. -/
theorem C11_outcome_of_retrieval_witness :
    (getDataFromSource envNone sys0 Envelope.init (demoSource "T" 1000 0 1) "").1 =
      GET_DATA_FAILED ∧
    (getDataFromSource envNone sys0 Envelope.init (demoSource "A" 0 0 1) "").1 =
      GET_DATA_DELAYED :=
  ⟨(C11_outcome_of_retrieval envNone sys0 Envelope.init (demoSource "T" 1000 0 1) "" rfl).1.mpr
      (Or.inr (Or.inr ⟨rfl, rfl, by decide⟩)),
    (C11_outcome_of_retrieval envNone sys0 Envelope.init (demoSource "A" 0 0 1) "" rfl).2.1.mpr
      ⟨rfl, rfl, rfl, rfl⟩⟩

/-! ## C12: failed retrievals in the envelope -/

/-- C12, the code at the failing input: the fixed interval source `T` has the
subscriber `7` and its hook succeeds without a value and without diagnostics,
so the retrieval is `GET_DATA_FAILED`. On the push path
`sendDataToSubscribers` drops that outcome and publishes, under the topic
`ext/T`, an envelope whose error list is empty. On the poll path
`PollDataForSending` records the same failure as one entry. -/
theorem C12_push_drops_failure :
    (extPushing.datasources.map fun kd => (kd.1, kd.2.subscribers, kd.2.enabled)) =
      [("T", [7], true)] ∧
    (extPushing.datasources.map fun kd =>
      (getDataFromSource envNone sys0 Envelope.init kd.2 "").1) = [GET_DATA_FAILED] ∧
    (extPushing.sendDataToSubscribers envNone sys0 "T").2.trace =
      [Event.get_data 1 none, Event.PublishData "ext/T" { data := [], errors := [] }] ∧
    (extPushing.PollDataForSending envNone sys0 ["T"] "" 9).1.errors =
      ["getDataFromSource(T) failed in extension ext"] := by
  refine ⟨rfl, rfl, rfl, rfl⟩

/-! ## C13: loading a module -/

/-- The constructor succeeds exactly on a descriptor that is not null, declares
the API version of the host, has a field table and a name and full name that
are not empty. -/
theorem Extension.ctor_isOk_iff (E : Env) (p : Option quasar_ext_info_t) (path : String)
    (s : Sys) :
    (∃ r, Extension.ctor E p path s = .ok r) ↔
      ∃ info f, p = some info ∧ info.api_version = E.QUASAR_API_VERSION ∧
        info.fields = some f ∧ f.name ≠ "" ∧ f.fullname ≠ "" := by
  unfold Extension.ctor
  cases p with
  | none => simp
  | some info =>
    by_cases hv : info.api_version = E.QUASAR_API_VERSION
    · cases hf : info.fields with
      | none => simp [hv, hf]
      | some f =>
        by_cases hn : f.name = ""
        · simp [hv, hf, hn, String.isEmpty_iff]
        · by_cases hfn : f.fullname = ""
          · simp [hv, hf, hn, hfn, String.isEmpty_iff]
          · simp [hv, hf, hn, hfn, String.isEmpty_iff]
    · simp [hv]

/-- C13: let the library load and both entry points resolve, and let `p` be the
descriptor `quasar_ext_load` returns. Then `Load` produces an extension if and
only if `p` is not null, the init, shutdown and `get_data` hooks, the field
table and the descriptor array are present, the declared API version equals
that of the host, and name and full name are not empty; the extension is then
the one the constructor builds. In every other case `Load` returns no
extension (so no source is registered and no timer exists) and leaves the
process state, the uid counter included, as it was; no exception leaves
`Load`, whose result is always a value. -/
theorem C13_Load_requirements (E : Env) (lib : QLibrary) (p : Option quasar_ext_info_t)
    (path : String) (s : Sys)
    (hl : lib.load = true) (hp : lib.quasar_ext_load = some p)
    (hd : lib.quasar_ext_destroy = true) :
    ((Extension.Load E lib path s).1.isSome = true ↔ loadable E p) ∧
    (∀ ext, (Extension.Load E lib path s).1 = some ext →
      Extension.ctor E p path s = .ok (ext, (Extension.Load E lib path s).2)) ∧
    (¬ loadable E p → Extension.Load E lib path s = (none, s)) := by
  have hnone : (Extension.Load E lib path s).1 = none → Extension.Load E lib path s = (none, s) := by
    unfold Extension.Load
    simp only [hl, hp, hd, Bool.not_true, Bool.false_eq_true, if_false]
    cases p with
    | none => simp
    | some info =>
      simp only []
      split
      · simp
      · cases hc : Extension.ctor E (some info) path s with
        | error e => simp
        | ok r => simp
  have hiff : (Extension.Load E lib path s).1.isSome = true ↔ loadable E p := by
    unfold Extension.Load loadable
    simp only [hl, hp, hd, Bool.not_true, Bool.false_eq_true, if_false]
    cases p with
    | none => simp
    | some info =>
      simp only []
      have hc := Extension.ctor_isOk_iff E (some info) path s
      cases hi : info.init <;> cases hs : info.shutdown <;> cases hg : info.get_data <;>
        cases hf : info.fields <;> cases hds : info.dataSources <;>
        simp [hi, hs, hg, hf, hds]
      rename_i f ds
      cases hcc : Extension.ctor E (some info) path s with
      | error e =>
        simp only [hcc, Option.isSome_none, Bool.false_eq_true, false_iff]
        intro hx
        have h1 := hc.mpr ⟨info, f, rfl, hx.1, hf, hx.2.1, hx.2.2⟩
        rw [hcc] at h1
        obtain ⟨r, hr⟩ := h1
        cases hr
      | ok r =>
        simp only [hcc, Option.isSome_some, true_iff]
        obtain ⟨i2, f2, e1, e2, e3, e4, e5⟩ := hc.mp ⟨r, hcc⟩
        cases e1
        rw [hf] at e3
        cases e3
        exact ⟨e2, e4, e5⟩
  refine ⟨hiff, ?_, ?_⟩
  · intro ext hext
    unfold Extension.Load at hext ⊢
    simp only [hl, hp, hd, Bool.not_true, Bool.false_eq_true, if_false] at hext ⊢
    cases p with
    | none => simp at hext
    | some info =>
      simp only [] at hext ⊢
      split at hext
      · simp at hext
      · rename_i hcond
        rw [if_neg hcond]
        cases hc : Extension.ctor E (some info) path s with
        | error e => simp [hc] at hext
        | ok r =>
          simp only [hc, Option.some.injEq] at hext ⊢
          rw [← hext]
  · intro hnl
    apply hnone
    cases hx : (Extension.Load E lib path s).1 with
    | none => rfl
    | some ext => exact absurd (hiff.mp (by simp [hx])) hnl

/-- C13 at a concrete input: a module that declares API version `2` to a host
of version `1` is not loaded, and the process state stays as it was. -/
theorem C13_Load_requirements_witness :
    Extension.Load envNone (libOf (some infoWrongVersion)) "lib" sys0 = (none, sys0) ∧
    (Extension.Load envNone (libOf (some (demoInfo oneInterval))) "lib" sys0).1.isSome = true :=
  ⟨(C13_Load_requirements envNone (libOf (some infoWrongVersion)) (some infoWrongVersion) "lib"
      sys0 rfl rfl rfl).2.2 (by
        rintro ⟨info, f, h1, _, _, _, _, _, h7, _⟩
        cases h1
        exact absurd h7 (by decide)),
    (C13_Load_requirements envNone (libOf (some (demoInfo oneInterval)))
      (some (demoInfo oneInterval)) "lib" sys0 rfl rfl rfl).1.mpr
      ⟨_, _, rfl, rfl, rfl, rfl, rfl, rfl, rfl, by decide, by decide⟩⟩

/-! ## C14: the cache of a source that was never retrieved -/

/-- A retrieval of an enabled source whose cache has expired calls the hook. -/
theorem getDataFromSource_expired (E : Env) (s : Sys) (msg : Envelope) (src : DataSource)
    (args : String) (hen : src.enabled = true)
    (hexp : src.cache.expiry < (E.now s.ticks : Int)) :
    (getDataFromSource E s msg src args).2.2.2.trace =
      s.trace ++ [Event.get_data src.uid (argPtr args)] := by
  have hmiss : cacheFresh E s src = false := by
    simp only [cacheFresh, Bool.and_eq_false_imp, decide_eq_false_iff_not, not_le]
    intro _
    exact hexp
  exact getDataFromSource_trace_of_called E s msg src args hen hmiss

/-- C14, the code at the failing input: the client polled source `A`, validity
time 500 ms, is registered at clock reading `1000` and retrieved for the first
time at the same reading. The constructor has set the expiry of the empty
cache to `1000`, the test `expiry >= now` holds, and the retrieval returns
`GET_DATA_SUCCESS` with the default constructed cache value, an empty object,
under key `A`; the hook, which would have produced `7`, is not called. -/
theorem C14_first_retrieval_at_registration :
    Extension.ctor envFrozen (some (demoInfo onePolled)) "lib" sys0 =
      .ok (demoExt envFrozen onePolled, { uid := 1, ticks := 1, trace := [] }) ∧
    ((demoExt envFrozen onePolled).datasources.map fun kd =>
      (kd.1, kd.2.enabled, kd.2.rate, kd.2.validtime, kd.2.cache.expiry)) =
      [("A", true, envFrozen.QUASAR_POLLING_CLIENT, 500, 1000)] ∧
    ((demoExt envFrozen onePolled).datasources.map fun kd =>
      (getDataFromSource envFrozen { uid := 1, ticks := 1, trace := [] } Envelope.init kd.2 "").1) =
      [GET_DATA_SUCCESS] ∧
    ((demoExt envFrozen onePolled).datasources.map fun kd =>
      (getDataFromSource envFrozen { uid := 1, ticks := 1, trace := [] } Envelope.init kd.2
        "").2.1.data.get "A") = [some Json.empty] ∧
    ((demoExt envFrozen onePolled).datasources.map fun kd =>
      (getDataFromSource envFrozen { uid := 1, ticks := 1, trace := [] } Envelope.init kd.2
        "").2.2.2.trace) = [[]] ∧
    (envFrozen.get_data [] 1 none).2.val = some (Json.num 7) := by
  refine ⟨rfl, rfl, rfl, rfl, rfl, rfl⟩

/-! ## C15: diagnostics of the hook -/

/-- C15: in a retrieval that calls the `get_data` hook (the source is enabled
and the cache does not answer), the error list of the envelope afterwards is
the list before followed by the diagnostics the hook reported, in their
order, whatever the outcome of the retrieval; in a retrieval that does not
call the hook (disabled source, fresh cache) the error list is unchanged. The
hook is called exactly in the first case. -/
theorem C15_diagnostics_merged (E : Env) (s : Sys) (msg : Envelope) (src : DataSource)
    (args : String) :
    (hookCalled E s src = true →
      (getDataFromSource E s msg src args).2.1.errors =
        msg.errors ++ (E.get_data s.trace src.uid (argPtr args)).2.errors ∧
      (getDataFromSource E s msg src args).2.2.2.trace =
        s.trace ++ [Event.get_data src.uid (argPtr args)]) ∧
    (hookCalled E s src = false →
      (getDataFromSource E s msg src args).2.1.errors = msg.errors ∧
      (getDataFromSource E s msg src args).2.2.2.trace = s.trace) := by
  have he := getDataFromSource_errors E s msg src args
  unfold diagnostics at he
  constructor
  · intro hc
    rw [he, if_pos hc]
    refine ⟨rfl, ?_⟩
    unfold hookCalled at hc
    have hen : src.enabled = true := by
      cases h : src.enabled
      · simp [h] at hc
      · rfl
    have hmiss : cacheFresh E s src = false := by
      cases h : cacheFresh E s src
      · rfl
      · simp [h] at hc
    exact getDataFromSource_trace_of_called E s msg src args hen hmiss
  · intro hc
    rw [he, if_neg (by simp [hc])]
    refine ⟨by simp, ?_⟩
    unfold hookCalled at hc
    cases hen : src.enabled
    · rw [getDataFromSource_disabled E s msg src args hen]
    · have hfr : cacheFresh E s src = true := by
        cases h : cacheFresh E s src
        · simp [hen, h] at hc
        · rfl
      rw [getDataFromSource_fresh E s msg src args hen hfr]
      rfl

/-- C15 at concrete inputs: the hook reports `w1`, `w2` and the envelope holds
`e0`. A retrieval that succeeds, one that is delayed and one that fails all
end with the error list `e0`, `w1`, `w2`; a retrieval of a disabled source
leaves `e0`. -/
theorem C15_diagnostics_merged_witness :
    ((getDataFromSource envDiag sys0 envelopeE0 (demoSource "A" 0 0 1) "").1,
      (getDataFromSource envDiag sys0 envelopeE0 (demoSource "A" 0 0 1) "").2.1.errors) =
      (GET_DATA_SUCCESS, ["e0"] ++ ["w1", "w2"]) ∧
    ((getDataFromSource envDiag sys0 envelopeE0 (demoSource "B" 0 0 2) "").1,
      (getDataFromSource envDiag sys0 envelopeE0 (demoSource "B" 0 0 2) "").2.1.errors) =
      (GET_DATA_DELAYED, ["e0"] ++ ["w1", "w2"]) ∧
    ((getDataFromSource envDiag sys0 envelopeE0 (demoSource "T" 1000 0 3) "").1,
      (getDataFromSource envDiag sys0 envelopeE0 (demoSource "T" 1000 0 3) "").2.1.errors) =
      (GET_DATA_FAILED, ["e0"] ++ ["w1", "w2"]) ∧
    (getDataFromSource envDiag sys0 envelopeE0
      { demoSource "T" 1000 0 3 with enabled := false } "").2.1.errors = ["e0"] :=
  ⟨Prod.ext rfl
      ((C15_diagnostics_merged envDiag sys0 envelopeE0 (demoSource "A" 0 0 1) "").1 rfl).1,
    Prod.ext rfl
      ((C15_diagnostics_merged envDiag sys0 envelopeE0 (demoSource "B" 0 0 2) "").1 rfl).1,
    Prod.ext rfl
      ((C15_diagnostics_merged envDiag sys0 envelopeE0 (demoSource "T" 1000 0 3) "").1 rfl).1,
    ((C15_diagnostics_merged envDiag sys0 envelopeE0
      { demoSource "T" 1000 0 3 with enabled := false } "").2 rfl).1⟩

/-! ## C16: descriptors with the same name -/

/-- The registration loop at a descriptor whose name is registered: the
descriptor is skipped. -/
theorem registerSources_cons_dup (E : Env) (d : quasar_data_source_t)
    (rest : List quasar_data_source_t) (m : SourceMap) (s : Sys) (h : m.count d.name = true) :
    registerSources E (d :: rest) m s =
      (d :: (registerSources E rest m s).1, (registerSources E rest m s).2) := by
  simp [registerSources, h]

/-- The registration loop at a descriptor whose name is not registered. -/
theorem registerSources_cons_new (E : Env) (d : quasar_data_source_t)
    (rest : List quasar_data_source_t) (m : SourceMap) (s : Sys) (h : m.count d.name = false) :
    registerSources E (d :: rest) m s =
      ({ d with uid := (s.uid + 1) % 2 ^ 64 } ::
        (registerSources E rest (regMap E d m s) (regSys E d s)).1,
       (registerSources E rest (regMap E d m s) (regSys E d s)).2) := by
  simp [registerSources, h, regMap, regSys]

theorem registerSources_append (E : Env) (a b : List quasar_data_source_t) :
    ∀ (m : SourceMap) (s : Sys),
      registerSources E (a ++ b) m s =
        ((registerSources E a m s).1 ++
          (registerSources E b (registerSources E a m s).2.1 (registerSources E a m s).2.2).1,
         (registerSources E b (registerSources E a m s).2.1 (registerSources E a m s).2.2).2) := by
  induction a with
  | nil => intro m s; simp [registerSources]
  | cons d rest ih =>
    intro m s
    cases hc : m.count d.name
    · rw [List.cons_append, registerSources_cons_new E d _ m s hc,
        registerSources_cons_new E d _ m s hc, ih]
      rfl
    · rw [List.cons_append, registerSources_cons_dup E d _ m s hc,
        registerSources_cons_dup E d _ m s hc, ih]
      rfl

/-- What the registration loop leaves under a name `n`: an entry that was there
stays; otherwise the source built from the first descriptor named `n`, if
there is one, and nothing if there is none. -/
theorem registerSources_find (E : Env) (ds : List quasar_data_source_t) (n : String) :
    ∀ (m : SourceMap) (s : Sys),
      (∀ e, m.find n = some e → (registerSources E ds m s).2.1.find n = some e) ∧
      (m.find n = none → ∀ d, ds.find? (fun x => x.name = n) = some d →
        ∃ uid now, (registerSources E ds m s).2.1.find n = some (newSource E d uid now)) ∧
      (m.find n = none → ds.find? (fun x => x.name = n) = none →
        (registerSources E ds m s).2.1.find n = none) := by
  induction ds with
  | nil =>
    intro m s
    refine ⟨fun e h => h, ?_, fun h _ => h⟩
    intro _ d hd
    simp at hd
  | cons d0 rest ih =>
    intro m s
    cases hc : m.count d0.name
    · -- the descriptor is registered
      rw [registerSources_cons_new E d0 rest m s hc]
      obtain ⟨i1, i2, i3⟩ := ih (regMap E d0 m s) (regSys E d0 s)
      have hfa : (regMap E d0 m s).find n = match m.find n with
          | some e => some e
          | none => if d0.name = n then
              some (newSource E d0 ((s.uid + 1) % 2 ^ 64) (E.now s.ticks)) else none :=
        SourceMap.find_append m d0.name _ n
      refine ⟨?_, ?_, ?_⟩
      · intro e he
        exact i1 e (by rw [hfa, he])
      · intro hm d hd
        by_cases hk : d0.name = n
        · simp only [List.find?_cons, hk, decide_True] at hd
          cases hd
          exact ⟨(s.uid + 1) % 2 ^ 64, E.now s.ticks, i1 _ (by rw [hfa, hm]; simp [hk])⟩
        · simp only [List.find?_cons, hk, decide_False] at hd
          exact i2 (by rw [hfa, hm]; simp [hk]) d hd
      · intro hm hd
        by_cases hk : d0.name = n
        · simp [List.find?_cons, hk] at hd
        · simp only [List.find?_cons, hk, decide_False] at hd
          exact i3 (by rw [hfa, hm]; simp [hk]) hd
    · -- the name is taken: the descriptor is skipped
      rw [registerSources_cons_dup E d0 rest m s hc]
      obtain ⟨i1, i2, i3⟩ := ih m s
      have hne : m.find n = none → d0.name ≠ n := by
        intro hm hk
        rw [SourceMap.count, hk, hm] at hc
        simp at hc
      refine ⟨i1, ?_, ?_⟩
      · intro hm d hd
        simp only [List.find?_cons, hne hm, decide_False] at hd
        exact i2 hm d hd
      · intro hm hd
        simp only [List.find?_cons, hne hm, decide_False] at hd
        exact i3 hm hd

theorem SourceMap.find_eq_none_iff (m : SourceMap) (n : String) :
    m.find n = none ↔ n ∉ m.map (fun kd => kd.1) := by
  induction m with
  | nil => simp [SourceMap.find]
  | cons p rest ih =>
    obtain ⟨k, d⟩ := p
    by_cases hk : k = n
    · simp [SourceMap.find, hk]
    · simp [SourceMap.find, hk, ih, Ne.symm hk]

theorem registerSources_keys_nodup (E : Env) (ds : List quasar_data_source_t) :
    ∀ (m : SourceMap) (s : Sys), (m.map fun kd => kd.1).Nodup →
      ((registerSources E ds m s).2.1.map fun kd => kd.1).Nodup := by
  induction ds with
  | nil => intro m s h; exact h
  | cons d rest ih =>
    intro m s h
    cases hc : m.count d.name
    · rw [registerSources_cons_new E d rest m s hc]
      apply ih
      have hnot : d.name ∉ m.map (fun kd => kd.1) := by
        apply (SourceMap.find_eq_none_iff m d.name).mp
        simpa [SourceMap.count] using hc
      simp only [regMap, List.map_append, List.map_cons, List.map_nil]
      rw [List.nodup_append]
      refine ⟨h, by simp, ?_⟩
      intro a ha hb
      simp only [List.mem_singleton] at hb
      rw [hb] at ha
      exact hnot ha
    · rw [registerSources_cons_dup E d rest m s hc]
      exact ih m s h

/-- A descriptor that follows one with the same name changes neither the map
nor the process state the registration loop ends with. -/
theorem registerSources_skip (E : Env) (pre : List quasar_data_source_t)
    (d : quasar_data_source_t) (post : List quasar_data_source_t) (m : SourceMap) (s : Sys)
    (h : d.name ∈ pre.map fun x => x.name) :
    (registerSources E (pre ++ d :: post) m s).2 = (registerSources E (pre ++ post) m s).2 := by
  rw [registerSources_append, registerSources_append]
  simp only []
  have hcount : (registerSources E pre m s).2.1.count d.name = true := by
    obtain ⟨f1, f2, _⟩ := registerSources_find E pre d.name m s
    unfold SourceMap.count
    cases hm : m.find d.name with
    | some e => rw [f1 e hm]; rfl
    | none =>
      cases hfd : pre.find? (fun x => x.name = d.name) with
      | none =>
        rw [List.find?_eq_none] at hfd
        obtain ⟨x, hx, hxn⟩ := List.mem_map.mp h
        exact absurd (by simpa using hxn) (by simpa using hfd x hx)
      | some d1 =>
        obtain ⟨uid, now, hfind⟩ := f2 hm d1 hfd
        rw [hfind]; rfl
  rw [registerSources_cons_dup E d post _ _ hcount]

/-- The extension the constructor builds from a descriptor that passes its
checks. -/
theorem Extension.ctor_of_valid (E : Env) (info : quasar_ext_info_t) (f : quasar_ext_fields_t)
    (ds : List quasar_data_source_t) (path : String) (s : Sys)
    (hv : info.api_version = E.QUASAR_API_VERSION) (hf : info.fields = some f)
    (hn : f.name ≠ "") (hfn : f.fullname ≠ "") (hds : info.dataSources = some ds) :
    ∃ ext, Extension.ctor E (some info) path s = .ok (ext, (registerSources E ds [] s).2.2) ∧
      ext.datasources = (registerSources E ds [] s).2.1 ∧
      ext.extensionInfo.dataSources = some (registerSources E ds [] s).1 := by
  unfold Extension.ctor
  simp [hv, hf, hn, hfn, hds, String.isEmpty_iff]

/-- C16: let a descriptor pass every other check of the constructor and let `ds`
be its descriptor array. Then construction succeeds, also when names repeat;
a name is registered if and only if it occurs in `ds`, and it is registered
once; the source registered under a name has the rate and the validity time
of the first descriptor of `ds` with that name, and its uid is the one written
back into that descriptor; and a descriptor that follows one with the same
name changes nothing: without it the constructor builds the same sources and
ends in the same process state. -/
theorem C16_first_descriptor_wins (E : Env) (info : quasar_ext_info_t)
    (f : quasar_ext_fields_t) (ds : List quasar_data_source_t) (path : String) (s : Sys)
    (hv : info.api_version = E.QUASAR_API_VERSION) (hf : info.fields = some f)
    (hn : f.name ≠ "") (hfn : f.fullname ≠ "") (hds : info.dataSources = some ds) :
    ∃ ext s1, Extension.ctor E (some info) path s = .ok (ext, s1) ∧
      (∀ n, ext.SourceExists n = true ↔ n ∈ ds.map fun x => x.name) ∧
      (ext.datasources.map fun kd => kd.1).Nodup ∧
      (∀ n d, ds.find? (fun x => x.name = n) = some d →
        ∃ src, ext.datasources.find n = some src ∧ src.rate = d.rate ∧
          src.validtime = d.validtime ∧ writtenUid ext.extensionInfo n = some src.uid) ∧
      (∀ pre d post, ds = pre ++ d :: post → (d.name ∈ pre.map fun x => x.name) →
        ∃ ext0, Extension.ctor E (some { info with dataSources := some (pre ++ post) }) path s =
            .ok (ext0, s1) ∧
          ext0.datasources = ext.datasources) := by
  obtain ⟨ext, hctor, hmap, _⟩ := Extension.ctor_of_valid E info f ds path s hv hf hn hfn hds
  refine ⟨ext, _, hctor, ?_, ?_, ?_, ?_⟩
  · intro n
    obtain ⟨_, f2, f3⟩ := registerSources_find E ds n [] s
    unfold Extension.SourceExists SourceMap.count
    rw [hmap]
    cases hfd : ds.find? (fun x => x.name = n) with
    | none =>
      rw [f3 rfl hfd]
      have := List.find?_eq_none.mp hfd
      simp only [Option.isSome_none, Bool.false_eq_true, List.mem_map, false_iff, not_exists,
        not_and]
      intro x hx hxn
      exact absurd hxn (by simpa using this x hx)
    | some d =>
      obtain ⟨uid, now, hfind⟩ := f2 rfl d hfd
      rw [hfind]
      simp only [Option.isSome_some, List.mem_map, true_iff]
      exact ⟨d, List.mem_of_find?_eq_some hfd, by simpa using List.find?_some hfd⟩
  · rw [hmap]
    exact registerSources_keys_nodup E ds [] s (by simp)
  · intro n d hfd
    obtain ⟨_, f2, _⟩ := registerSources_find E ds n [] s
    obtain ⟨uid, now, hfind⟩ := f2 rfl d hfd
    rw [← hmap] at hfind
    refine ⟨_, hfind, rfl, rfl, ?_⟩
    exact (Extension.ctor_spec hctor).2 _ (SourceMap.find_mem hfind)
  · intro pre d post hsplit hdup
    obtain ⟨ext0, hctor0, hmap0, _⟩ := Extension.ctor_of_valid E
      { info with dataSources := some (pre ++ post) } f (pre ++ post) path s hv hf hn hfn rfl
    have hskip := registerSources_skip E pre d post [] s hdup
    rw [← hsplit] at hskip
    refine ⟨ext0, ?_, ?_⟩
    · rw [hctor0, hskip]
    · rw [hmap0, hmap, hskip]

/-- C16 at a concrete input: the array `sourcesRepeated` names `A` twice. The
constructor registers `A` and `B`; `A` has rate `0`, validity time 500 and uid
`1` of its first descriptor, and the second descriptor named `A` keeps the uid
`77` it came with. -/
theorem C16_first_descriptor_wins_witness :
    ((demoExt envNone sourcesRepeated).datasources.map fun kd =>
      (kd.1, kd.2.rate, kd.2.validtime, kd.2.uid)) = [("A", 0, 500, 1), ("B", -1, 0, 2)] ∧
    (demoExt envNone sourcesRepeated).extensionInfo.dataSources.map
      (fun l => l.map fun x => (x.name, x.uid)) = some [("A", 1), ("B", 2), ("A", 77)] ∧
    (∃ ext s1, Extension.ctor envNone (some (demoInfo sourcesRepeated)) "lib" sys0 = .ok (ext, s1) ∧
      (∀ n, ext.SourceExists n = true ↔ n ∈ sourcesRepeated.map fun x => x.name) ∧
      (ext.datasources.map fun kd => kd.1).Nodup ∧
      (∀ n d, sourcesRepeated.find? (fun x => x.name = n) = some d →
        ∃ src, ext.datasources.find n = some src ∧ src.rate = d.rate ∧
          src.validtime = d.validtime ∧ writtenUid ext.extensionInfo n = some src.uid) ∧
      (∀ pre d post, sourcesRepeated = pre ++ d :: post → (d.name ∈ pre.map fun x => x.name) →
        ∃ ext0, Extension.ctor envNone
            (some { demoInfo sourcesRepeated with dataSources := some (pre ++ post) }) "lib" sys0 =
            .ok (ext0, s1) ∧
          ext0.datasources = ext.datasources)) :=
  ⟨rfl, rfl, C16_first_descriptor_wins envNone (demoInfo sourcesRepeated)
    { name := "ext", fullname := "Demo", author := "", description := "", version := "", url := "" }
    sourcesRepeated "lib" sys0 rfl rfl (by decide) (by decide) rfl⟩

end Quasar
